import Mathlib

/-!
# insiderTracker — formal model of the polling-and-deduplication core

A shallow embedding of the backend of the insiderTracker repository
(`src/backend/hashdive.py`, `src/backend/crud.py`, `src/backend/poller.py`,
`src/backend/main.py`) together with proofs about the behaviour of the
normalizer, the deduplicating store, the alert policy, the poll cycle and the
query API.

Modelling conventions:

* Python scalar values that flow through the untyped upstream payloads are
  modelled by `PyVal` (`None` / `int` / `float` / `str`).  Python floats that
  arrive from JSON are binary64 values, every one of which is a finite decimal;
  they are modelled exactly as `m / 10^p`.  Arithmetic on them is exact
  rational arithmetic (the claims under study never depend on binary rounding).
* Python dicts with a known field set are modelled as structures whose fields
  hold `PyVal` or `Option` values; a missing key is `PyVal.pnone` resp. `none`.
* Exceptions are modelled with `Except String`; a caught exception is a
  `.error` value consumed by the caller exactly where the source has
  `try/except`.
* The database is modelled as explicit state (`Db`) threaded through the CRUD
  operations; `datetime.utcnow()` reads are passed in as explicit `now`
  arguments.
-/

namespace InsiderTracker

/-- A JSON-decoded Python scalar: `None`, an `int`, a `float` (every float a
JSON payload can carry is a finite decimal, modelled exactly as `m / 10^p`),
or a `str`. -/
inductive PyVal : Type
  | pnone : PyVal
  | pint (n : ℤ) : PyVal
  | pfloat (m : ℤ) (p : ℕ) : PyVal
  | pstr (s : String) : PyVal
  deriving DecidableEq, Repr

namespace PyVal

/-- Python truthiness of a scalar: `None`, `0`, `0.0` and `""` are falsy,
everything else is truthy. -/
def truthy : PyVal → Bool
  | pnone => false
  | pint n => n != 0
  | pfloat m _ => m != 0
  | pstr s => s != ""

/-- Python's short-circuiting `a or b` on scalars: `a` if truthy, else `b`. -/
def pyOr (a b : PyVal) : PyVal := if a.truthy then a else b

/-- The exact rational value of a numeric `PyVal` (used by `float(...)`). -/
def toQ : PyVal → ℚ
  | pnone => 0
  | pint n => (n : ℚ)
  | pfloat m p => (m : ℚ) / 10 ^ p
  | pstr _ => 0

end PyVal

/-- Python's `a or b` on optional strings (`None` and `""` are falsy). -/
def strOr (a b : Option String) : Option String :=
  match a with
  | some s => if s = "" then b else some s
  | none => b

/-- `c` is an ASCII decimal digit. -/
def isDigitCh (c : Char) : Bool := '0' ≤ c && c ≤ '9'

/-- Numeric value of an ASCII digit character. -/
def digitVal (c : Char) : ℕ := c.toNat - 48

/-- Value of a big-endian ASCII digit string. -/
def digitsVal (ds : List Char) : ℕ := ds.foldl (fun a c => 10 * a + digitVal c) 0

/-- Parse an unsigned decimal literal (`123`, `1.5`, `1.`, `.5`) to an exact
rational.  Mirrors the core of Python's `float(str)` grammar; exponent
notation and `inf`/`nan`, which no upstream payload under study uses, are not
modelled. -/
def parseUnsignedDecimal (cs : List Char) : Option ℚ :=
  match cs.splitOn '.' with
  | [ds] =>
      if ds ≠ [] ∧ ds.all isDigitCh then some (digitsVal ds) else none
  | [is, fs] =>
      if (is ≠ [] ∨ fs ≠ []) ∧ is.all isDigitCh ∧ fs.all isDigitCh then
        some ((digitsVal is : ℚ) + (digitsVal fs : ℚ) / 10 ^ fs.length)
      else none
  | _ => none

/-- An ASCII whitespace character (the whitespace the payloads can carry). -/
def isSpaceCh (c : Char) : Bool :=
  c = ' ' || c = '\t' || c = '\n' || c = '\r'

/-- Python `str.strip()` on the ASCII whitespace set. -/
def pyTrim (cs : List Char) : List Char :=
  ((cs.dropWhile isSpaceCh).reverse.dropWhile isSpaceCh).reverse

/-- ASCII lower-casing of one character (Python `str.lower` restricted to the
ASCII range the payloads use). -/
def charLower (c : Char) : Char :=
  if 'A' ≤ c && c ≤ 'Z' then Char.ofNat (c.toNat + 32) else c

/-- ASCII `str.lower()`. -/
def asciiLower (s : String) : String := String.mk (s.data.map charLower)

/-- Python's `float(str)`: optional surrounding whitespace, optional sign,
decimal literal; anything else raises `ValueError` (here: `none`). -/
def parseFloatQ (s : String) : Option ℚ :=
  match pyTrim s.data with
  | '-' :: rest => (parseUnsignedDecimal rest).map (fun q => -q)
  | '+' :: rest => parseUnsignedDecimal rest
  | cs => parseUnsignedDecimal cs

/-- `HashdiveClient.safe_float` (`src/backend/hashdive.py:292-300`): `None`
stays `None`, numeric values convert exactly, strings are parsed, and an
unparsable value yields `None` (the caught `ValueError`/`TypeError`). -/
def safe_float : PyVal → Option ℚ
  | .pnone => none
  | .pint n => some (n : ℚ)
  | .pfloat m p => some ((m : ℚ) / 10 ^ p)
  | .pstr s => parseFloatQ s

/-- Truthiness of an already-coerced optional number (`None`, `0` falsy). -/
def qTruthy : Option ℚ → Bool
  | none => false
  | some q => q != 0

/-- The `market_info.tags` value: a list of strings, a string, or some other
shape (which `normalize_trade` replaces by `"[]"`). -/
inductive TagsVal : Type
  | tlist (ts : List String)
  | tstr (s : String)
  | tother
  deriving DecidableEq, Repr

/-- The `market_info` sub-dict of an upstream trade record.  A field holds
`pnone`/`none` when the key is absent. -/
structure MarketInfo where
  question : Option String
  outcome : Option String
  tags : Option TagsVal
  target_price : PyVal
  resolved : PyVal
  is_winner : PyVal
  resolved_price : PyVal
  deriving DecidableEq, Repr

/-- One raw upstream trade record — the untyped dict shape read by
`HashdiveClient.normalize_trade` and `generate_trade_uid`, restricted to the
keys the source actually reads.  Absent keys are `pnone`/`none`. -/
structure RawTrade where
  id : PyVal
  trade_id : PyVal
  asset_id : PyVal
  token_id : PyVal
  side : Option String
  price : PyVal
  usd_amount : PyVal
  value_usd : PyVal
  shares : PyVal
  size : PyVal
  amount : PyVal
  timestamp : PyVal
  market_info : Option MarketInfo
  market : Option String
  market_name : Option String
  deriving DecidableEq, Repr

/-- A raw trade with every key absent (base point for concrete test inputs). -/
def RawTrade.empty : RawTrade :=
  ⟨.pnone, .pnone, .pnone, .pnone, none, .pnone, .pnone, .pnone, .pnone,
   .pnone, .pnone, .pnone, none, none, none⟩

/-! ## Decimal rendering (the `json.dumps` number/string grammar)

`generate_trade_uid` hashes `json.dumps(uid_data, sort_keys=True)`.  The
serialized form of each scalar is modelled here: `repr` of ints and of
(decimal-valued) floats, JSON string quoting, and `null`. -/

/-- The ASCII digit character for `d < 10`. -/
def digitChar (d : ℕ) : Char := Char.ofNat (48 + d)

/-- Big-endian decimal digits of a natural number (`repr`/`str` of an int). -/
def natDigits (n : ℕ) : List Char :=
  if _h : n < 10 then [digitChar n]
  else natDigits (n / 10) ++ [digitChar (n % 10)]
decreasing_by exact Nat.div_lt_self (by omega) (by omega)

/-- Fuel-driven twin of `natDigits`, structurally recursive in the fuel so
that concrete values reduce without unfolding the well-founded fixpoint;
with fuel at least the digit count it agrees with `natDigits`. -/
def natDigitsF (fuel n : ℕ) : List Char :=
  match fuel with
  | 0 => [digitChar n]
  | f + 1 =>
    if n < 10 then [digitChar n]
    else natDigitsF f (n / 10) ++ [digitChar (n % 10)]

/-- `repr` of a Python int: optional minus sign, then decimal digits. -/
def intRepr (n : ℤ) : List Char :=
  if n < 0 then '-' :: natDigits n.natAbs else natDigits n.toNat

/-- Left-pad a digit string with `'0'` to length `p`. -/
def zeroPad (p : ℕ) (ds : List Char) : List Char :=
  List.replicate (p - ds.length) '0' ++ ds

/-- `repr` of the float with exact value `m / 10^p`, in fixed notation:
`repr(6.0) = "6.0"`, `repr(-0.75) = "-0.75"`.  (CPython switches to exponent
notation only for extreme magnitudes; the fixed form is the one the model
uses throughout.) -/
def floatRepr (m : ℤ) (p : ℕ) : List Char :=
  let sign : List Char := if m < 0 then ['-'] else []
  let a := m.natAbs
  if p = 0 then sign ++ natDigits a ++ ['.', '0']
  else sign ++ natDigits (a / 10 ^ p) ++ '.' :: zeroPad p (natDigits (a % 10 ^ p))

/-- JSON escaping of one character (quote and backslash; other control-char
escapes are outside the character set of normal inputs). -/
def escCh (c : Char) : List Char :=
  if c = '"' ∨ c = '\\' then ['\\', c] else [c]

/-- JSON string quoting as `json.dumps` performs it. -/
def jsonQuote (s : String) : List Char :=
  '"' :: (s.data.map escCh).flatten ++ ['"']

/-- `json.dumps` of one scalar value. -/
def serVal : PyVal → List Char
  | .pnone => "null".data
  | .pint n => intRepr n
  | .pfloat m p => floatRepr m p
  | .pstr s => jsonQuote s

/-- The `"amount"` entry of `uid_data`:
`trade.get("usd_amount") or trade.get("shares") or trade.get("size")`. -/
def RawTrade.uidAmount (t : RawTrade) : PyVal :=
  t.usd_amount.pyOr (t.shares.pyOr t.size)

/-- The `"asset"` entry of `uid_data`:
`trade.get("asset_id") or trade.get("token_id") or ""`. -/
def RawTrade.uidAsset (t : RawTrade) : PyVal :=
  t.asset_id.pyOr (t.token_id.pyOr (.pstr ""))

/-- An optional string as the `PyVal` that `json.dumps` sees. -/
def sideVal : Option String → PyVal
  | none => .pnone
  | some s => .pstr s

/-- The six resolved fields `generate_trade_uid` serializes, in the
`sort_keys=True` key order: amount, asset, price, side, timestamp, wallet. -/
def RawTrade.uidFields (t : RawTrade) (wallet : String) :
    PyVal × PyVal × PyVal × PyVal × PyVal × String :=
  (t.uidAmount, t.uidAsset, t.price, sideVal t.side, t.timestamp, wallet)

/-- `json.dumps(uid_data, sort_keys=True)` character by character. -/
def uidChars (amount asset price side ts : PyVal) (wallet : String) : List Char :=
  "\x7b\"amount\": ".data ++ serVal amount ++
  ", \"asset\": ".data ++ serVal asset ++
  ", \"price\": ".data ++ serVal price ++
  ", \"side\": ".data ++ serVal side ++
  ", \"timestamp\": ".data ++ serVal ts ++
  ", \"wallet\": ".data ++ serVal (.pstr wallet) ++ "\x7d".data

/-- The `uid_string` of `generate_trade_uid` (`src/backend/hashdive.py:199-209`):
the sorted-keys JSON text over the six identifying fields. -/
def uidString (t : RawTrade) (wallet : String) : String :=
  String.mk (uidChars t.uidAmount t.uidAsset t.price (sideVal t.side)
    t.timestamp wallet)

/-- `HashdiveClient.generate_trade_uid` (`src/backend/hashdive.py:187-210`).
`hashlib.sha256(...).hexdigest()` is an external cryptographic primitive and
enters the model as the parameter `hash`; distinctness claims carry a
collision-resistance hypothesis about it on the strings involved. -/
def generate_trade_uid (hash : String → String) (t : RawTrade)
    (wallet : String) : String :=
  hash (uidString t wallet)

/-! ## Dates and times (`datetime` as the source uses it)

`normalize_timestamp` touches `datetime` through: the constructor (with its
range validation), `fromtimestamp`, `strptime` with two fixed formats,
`fromisoformat`, `isoformat`, and `utcnow`.  The model implements the proleptic
Gregorian calendar exactly; `fromtimestamp` is modelled at UTC offset zero (the
container clock's offset never matters to the claims under study, only the
representable year range 1..9999 does). -/

/-- A naive `datetime` value (microseconds, always zero here, omitted). -/
structure DateTime where
  year : ℕ
  month : ℕ
  day : ℕ
  hour : ℕ
  minute : ℕ
  second : ℕ
  deriving DecidableEq, Repr

/-- Gregorian leap year. -/
def isLeap (y : ℕ) : Bool := (y % 4 == 0 && y % 100 != 0) || y % 400 == 0

/-- Days in a month. -/
def daysInMonth (y m : ℕ) : ℕ :=
  if m = 2 then (if isLeap y then 29 else 28)
  else if m = 4 ∨ m = 6 ∨ m = 9 ∨ m = 11 then 30
  else 31

/-- The two exception classes the `datetime(...)` constructor raises on bad
arguments, distinguished because `normalize_timestamp`'s manual branch
catches `(ValueError, IndexError, AttributeError)` but *not*
`OverflowError`. -/
inductive DtExc where
  | valueError
  | overflowError
  deriving DecidableEq, Repr

/-- Whether a Python int fits CPython's C `int` (the `i` argument-format
unit the `datetime` constructor converts each argument with). -/
def fitsCInt (x : ℤ) : Bool := decide (-(2 ^ 31) ≤ x ∧ x < 2 ^ 31)

/-- The range-validation part of the `datetime(...)` constructor: `some` on
in-range arguments, `none` for the raised `ValueError`. -/
def mkDatetimeRange (y mo d h mi s : ℤ) : Option DateTime :=
  if 1 ≤ y ∧ y ≤ 9999 ∧ 1 ≤ mo ∧ mo ≤ 12 ∧ 1 ≤ d ∧
      d ≤ (daysInMonth y.toNat mo.toNat : ℤ) ∧ 0 ≤ h ∧ h ≤ 23 ∧
      0 ≤ mi ∧ mi ≤ 59 ∧ 0 ≤ s ∧ s ≤ 59 then
    some ⟨y.toNat, mo.toNat, d.toNat, h.toNat, mi.toNat, s.toNat⟩
  else none

/-- The `datetime(year, month, day, hour, minute, second)` constructor:
each argument is first converted to a C `int` — a Python int outside
`[-2^31, 2^31)` raises `OverflowError` — then range-checked, an
out-of-range value raising `ValueError`. -/
def mkDatetime (y mo d h mi s : ℤ) : Except DtExc DateTime :=
  if fitsCInt y ∧ fitsCInt mo ∧ fitsCInt d ∧ fitsCInt h ∧
      fitsCInt mi ∧ fitsCInt s then
    match mkDatetimeRange y mo d h mi s with
    | some dt => .ok dt
    | none => .error .valueError
  else .error .overflowError

/-- Civil date from days since 1970-01-01 (proleptic Gregorian). -/
def civilFromDays (z0 : ℤ) : ℤ × ℕ × ℕ :=
  let z := z0 + 719468
  let era := Int.fdiv z 146097
  let doe := (Int.fmod z 146097).toNat
  let yoe := (doe - doe / 1460 + doe / 36524 - doe / 146096) / 365
  let doy := doe - (365 * yoe + yoe / 4 - yoe / 100)
  let mp := (5 * doy + 2) / 153
  let d := doy - (153 * mp + 2) / 5 + 1
  let m := if mp < 10 then mp + 3 else mp - 9
  ((yoe : ℤ) + era * 400 + (if m ≤ 2 then 1 else 0), m, d)

/-- `datetime.fromtimestamp(ts)`: epoch seconds to a `datetime`, failing
(`ValueError`/`OverflowError`/`OSError`) when the year leaves 1..9999. -/
def fromtimestamp (ts : ℤ) : Except String DateTime :=
  let days := Int.fdiv ts 86400
  let sod := (Int.fmod ts 86400).toNat
  let c := civilFromDays days
  if 1 ≤ c.1 ∧ c.1 ≤ 9999 then
    .ok ⟨c.1.toNat, c.2.1, c.2.2, sod / 3600, sod % 3600 / 60, sod % 60⟩
  else .error "timestamp out of range"

/-- Two right-aligned decimal digits. -/
def pad2 (n : ℕ) : List Char := zeroPad 2 (natDigits n)

/-- Four right-aligned decimal digits. -/
def pad4 (n : ℕ) : List Char := zeroPad 4 (natDigits n)

/-- `datetime.isoformat()` of a naive value with zero microseconds:
`YYYY-MM-DDTHH:MM:SS`. -/
def isoformat (d : DateTime) : String :=
  String.mk (pad4 d.year ++ '-' :: pad2 d.month ++ '-' :: pad2 d.day ++
    'T' :: pad2 d.hour ++ ':' :: pad2 d.minute ++ ':' :: pad2 d.second)

/-- `isoformat()` of an aware value: the naive part plus a `±HH:MM` offset
(offset carried in minutes). -/
def isoformatTz (d : DateTime) (offMinutes : ℤ) : String :=
  isoformat d ++ String.mk
    ((if offMinutes < 0 then '-' else '+') ::
      pad2 (offMinutes.natAbs / 60) ++ ':' :: pad2 (offMinutes.natAbs % 60))

/-- Python `str.split(sep)` for a one-character separator: split at *every*
occurrence, keeping empty components (`"a  b".split(' ') == ['a','','b']`). -/
def splitOnCh (c : Char) : List Char → List (List Char)
  | [] => [[]]
  | x :: xs =>
    if x = c then [] :: splitOnCh c xs
    else
      match splitOnCh c xs with
      | r :: rs => (x :: r) :: rs
      | [] => [[x]]

/-- `str.replace('Z', '+00:00')`. -/
def replaceZ : List Char → List Char
  | [] => []
  | c :: cs =>
    if c = 'Z' then '+' :: '0' :: '0' :: ':' :: '0' :: '0' :: replaceZ cs
    else c :: replaceZ cs

/-- Python `int(str)` on a split component: optional sign, decimal digits
(whitespace trimming and underscore separators, which no payload under study
uses, are not modelled). -/
def pyIntL (cs : List Char) : Option ℤ :=
  let core : List Char → Option ℤ := fun ds =>
    if ds ≠ [] ∧ ds.all isDigitCh then some (digitsVal ds : ℤ) else none
  match cs with
  | '-' :: ds => (core ds).map (fun n => -n)
  | '+' :: ds => core ds
  | ds => core ds

/-- The hand-rolled `M/D/YYYY H:MM[:SS]` branch of `normalize_timestamp`
(`src/backend/hashdive.py:241-265`): split on `' '`, `'/'`, `':'`, convert
with `int(...)`, validate through the `datetime` constructor.  A shape
mismatch, an unparsable component (`int(...)` raising `ValueError`) or an
out-of-range component (`datetime` raising `ValueError`) is caught by the
branch's `except (ValueError, IndexError, AttributeError)` (`.ok none`);
a component not fitting a C `int` makes `datetime` raise `OverflowError`,
which that tuple does not catch, so it escapes (`.error .overflowError`).
Components of the time beyond the third are ignored, exactly as the source
indexes only `[0] [1] [2]`. -/
def manualParse (s : List Char) : Except DtExc (Option DateTime) :=
  match splitOnCh ' ' s with
  | [datePart, timePart] =>
    (match splitOnCh '/' datePart with
     | [ms, ds, ys] =>
       (match splitOnCh ':' timePart with
        | (hs :: mins :: restc) =>
          (match pyIntL ms, pyIntL ds, pyIntL ys, pyIntL hs, pyIntL mins,
              (match restc with
               | [] => some (0 : ℤ)
               | s2 :: _ => pyIntL s2) with
           | some month, some day, some year, some hour, some minute,
               some second =>
             (match mkDatetime year month day hour minute second with
              | .ok dt => .ok (some dt)
              | .error .valueError => .ok none
              | .error .overflowError => .error .overflowError)
           | _, _, _, _, _, _ => .ok none)
        | _ => .ok none)
     | _ => .ok none)
  | _ => .ok none

/-- A run of 1..`hi` ASCII digits, as a number. -/
def parseNatLen (hi : ℕ) (ds : List Char) : Option ℕ :=
  if ds ≠ [] ∧ ds.length ≤ hi ∧ ds.all isDigitCh then some (digitsVal ds)
  else none

/-- `datetime.strptime(s, "%m/%d/%Y %H:%M")` resp. `... %H:%M:%S"` — the two
fixed fallback formats of `normalize_timestamp` (lenient 1-2 digit fields,
1-4 digit year; the `\s+` treatment of whitespace runs, which the claims never
exercise, is modelled as a single space).  The regex caps every field at four
digits, so the constructed `datetime` arguments all fit a C `int` and the
constructor's `OverflowError` branch is unreachable; only the `ValueError`
that the loop's own `except (ValueError, AttributeError)` catches can arise,
so the constructor is modelled by its range-validation part
`mkDatetimeRange` alone. -/
def strptimeMDY (withSeconds : Bool) (s : List Char) : Option DateTime :=
  match splitOnCh ' ' s with
  | [datePart, timePart] =>
    (match splitOnCh '/' datePart with
     | [ms, ds, ys] =>
       (match splitOnCh ':' timePart with
        | tc => do
          let (hs, mins, ss) ←
            match withSeconds, tc with
            | false, [a, b] => some (a, b, none)
            | true, [a, b, c] => some (a, b, some c)
            | _, _ => none
          let month ← parseNatLen 2 ms
          let day ← parseNatLen 2 ds
          let year ← parseNatLen 4 ys
          let hour ← parseNatLen 2 hs
          let minute ← parseNatLen 2 mins
          let second ← match ss with
            | none => some 0
            | some t => parseNatLen 2 t
          mkDatetimeRange year month day hour minute second)
     | _ => none)
  | _ => none

/-- `datetime.fromisoformat` on the shapes the tracker meets: `YYYY-MM-DD`,
optionally followed by a `'T'` or `' '` separator and `HH:MM[:SS]`, optionally
followed by a `±HH:MM` offset.  Returns the parsed value and the offset in
minutes.  Every field is at most four digits — so the constructor's
`OverflowError` branch is unreachable and `mkDatetimeRange` models it — and
the call site sits under a bare `except:` anyway. -/
def isoParse (cs : List Char) : Option (DateTime × Option ℤ) := do
  let digits2 : List Char → Option ℕ := fun l =>
    if l.length = 2 ∧ l.all isDigitCh then some (digitsVal l) else none
  let digits4 : List Char → Option ℕ := fun l =>
    if l.length = 4 ∧ l.all isDigitCh then some (digitsVal l) else none
  let datetimeOf : List Char → Option DateTime := fun l =>
    match l with
    | [y1,y2,y3,y4,'-',m1,m2,'-',d1,d2] => do
      let y ← digits4 [y1,y2,y3,y4]
      let mo ← digits2 [m1,m2]
      let d ← digits2 [d1,d2]
      mkDatetimeRange y mo d 0 0 0
    | [y1,y2,y3,y4,'-',m1,m2,'-',d1,d2,sep,h1,h2,':',n1,n2] => do
      if sep = 'T' ∨ sep = ' ' then
        let y ← digits4 [y1,y2,y3,y4]
        let mo ← digits2 [m1,m2]
        let d ← digits2 [d1,d2]
        let h ← digits2 [h1,h2]
        let n ← digits2 [n1,n2]
        mkDatetimeRange y mo d h n 0
      else none
    | [y1,y2,y3,y4,'-',m1,m2,'-',d1,d2,sep,h1,h2,':',n1,n2,':',s1,s2] => do
      if sep = 'T' ∨ sep = ' ' then
        let y ← digits4 [y1,y2,y3,y4]
        let mo ← digits2 [m1,m2]
        let d ← digits2 [d1,d2]
        let h ← digits2 [h1,h2]
        let n ← digits2 [n1,n2]
        let sec ← digits2 [s1,s2]
        mkDatetimeRange y mo d h n sec
      else none
    | _ => none
  let offsetOf : List Char → Option ℤ := fun l =>
    match l with
    | [sg,h1,h2,':',n1,n2] => do
      let h ← digits2 [h1,h2]
      let n ← digits2 [n1,n2]
      if n ≤ 59 then
        match sg with
        | '+' => some ((h : ℤ) * 60 + n)
        | '-' => some (-((h : ℤ) * 60 + n))
        | _ => none
      else none
    | _ => none
  match datetimeOf cs with
  | some dt => some (dt, none)
  | none =>
    if cs.length > 6 then
      let dt ← datetimeOf (cs.take (cs.length - 6))
      let off ← offsetOf (cs.drop (cs.length - 6))
      some (dt, some off)
    else none

/-- The string branch of `normalize_timestamp`
(`src/backend/hashdive.py:238-286`): the hand-rolled `M/D/YYYY` parse, then the
two `strptime` formats, then `fromisoformat` after `replace('Z', '+00:00')`,
and finally the string returned unchanged.  An `OverflowError` escaping the
manual parse propagates (it is not in that branch's `except` tuple and the
later fallbacks are never reached). -/
def normalizeTimestampStr (s : String) : Except DtExc String :=
  match manualParse s.data with
  | .error e => .error e
  | .ok (some dt) => .ok (isoformat dt)
  | .ok none =>
  .ok (match strptimeMDY false s.data with
  | some dt => isoformat dt
  | none =>
  match strptimeMDY true s.data with
  | some dt => isoformat dt
  | none =>
  match isoParse (replaceZ s.data) with
  | some (dt, none) => isoformat dt
  | some (dt, some off) => isoformatTz dt off
  | none => s)

/-- `HashdiveClient.normalize_timestamp` (`src/backend/hashdive.py:224-290`).
The input is a JSON-decoded scalar, so the `isinstance(timestamp, datetime)`
arm is unreachable and `float`/`None` inputs take the final `utcnow` arm; the
`utcnow()` read is the explicit `now` argument.  Two exception paths escape:
the `int` arm's bare `fromtimestamp` call, and the string arm's
`OverflowError` out of the manual parse. -/
def normalize_timestamp (now : DateTime) : PyVal → Except String String
  | .pint n => (fromtimestamp n).map isoformat
  | .pstr s => (normalizeTimestampStr s).mapError (fun _ => "OverflowError")
  | _ => .ok (isoformat now)

/-! ## The Normalizer (`HashdiveClient.normalize_trade`) -/

/-- Python `str(...)` of a scalar. -/
def pyStr : PyVal → String
  | .pnone => "None"
  | .pint n => String.mk (intRepr n)
  | .pfloat m p => String.mk (floatRepr m p)
  | .pstr s => s

/-- `json.dumps` of a list of strings. -/
def dumpsStrList (ts : List String) : String :=
  String.mk ('[' :: (List.intercalate [',', ' '] (ts.map jsonQuote)) ++ [']'])

/-- The `tags` → `tags_json` step (`src/backend/hashdive.py:138-145`): a list
is dumped to JSON, a string passes through, anything else becomes `"[]"`;
an absent key defaults to the empty list. -/
def tagsJson (tv : Option TagsVal) : String :=
  match tv.getD (.tlist []) with
  | .tlist ts => dumpsStrList ts
  | .tstr s => s
  | .tother => "[]"

/-- The empty `market_info` dict (used when the key is absent or not a dict). -/
def MarketInfo.empty : MarketInfo := ⟨none, none, none, .pnone, .pnone, .pnone, .pnone⟩

/-- `HashdiveClient.normalize_side` (`src/backend/hashdive.py:212-222`):
falsy input is `None`; `buy`/`long` and `sell`/`short` map to the canonical
pair case-insensitively; anything else passes through lower-cased. -/
def normalize_side : Option String → Option String
  | none => none
  | some s =>
    if s = "" then none
    else
      let sl := asciiLower s
      if sl = "buy" ∨ sl = "long" then some "buy"
      else if sl = "sell" ∨ sl = "short" then some "sell"
      else some sl

/-- The full side-normalization step of `normalize_trade`
(`src/backend/hashdive.py:147-154`): the exact codes `"b"`/`"s"` first, then
`normalize_side`.  An absent key defaults to `""`. -/
def normSideFull (sideRaw : Option String) : Option String :=
  let raw := sideRaw.getD ""
  if raw = "b" then some "buy"
  else if raw = "s" then some "sell"
  else normalize_side (some raw)

/-- The canonical trade draft produced by `normalize_trade` (the keys of the
`normalized` dict). -/
structure NormalizedTrade where
  trade_uid : PyVal
  wallet_address : String
  asset_id : Option String
  market_name : Option String
  side : Option String
  share_type : Option String
  price : Option ℚ
  usd_amount : Option ℚ
  shares : Option ℚ
  timestamp : String
  market_question : Option String
  market_outcome : Option String
  market_tags : String
  market_target_price : Option ℚ
  market_resolved : ℤ
  market_is_winner : ℤ
  market_resolved_price : Option ℚ
  raw : RawTrade
  deriving DecidableEq, Repr

/-- `HashdiveClient.normalize_trade` (`src/backend/hashdive.py:99-185`).
`hash` stands for `hashlib.sha256(...).hexdigest()` and `now` for the
`utcnow` fallback read inside `normalize_timestamp`; the only exception that
can escape (an out-of-range integer timestamp) propagates as `.error`. -/
def normalize_trade (hash : String → String) (now : DateTime) (t : RawTrade)
    (wallet : String) : Except String NormalizedTrade := do
  let supplied := t.id.pyOr t.trade_id
  let uid : PyVal :=
    if supplied.truthy then supplied
    else .pstr (generate_trade_uid hash t wallet)
  let mi := t.market_info.getD .empty
  let ts ← normalize_timestamp now t.timestamp
  let priceQ := safe_float t.price
  let usd0 := safe_float (t.usd_amount.pyOr t.value_usd)
  let sharesQ := safe_float (t.shares.pyOr (t.size.pyOr t.amount))
  let usd :=
    if qTruthy usd0 = false ∧ qTruthy priceQ = true ∧ qTruthy sharesQ = true then
      some (priceQ.getD 0 * sharesQ.getD 0)
    else usd0
  return {
    trade_uid := uid
    wallet_address := wallet
    asset_id := if t.asset_id.truthy then some (pyStr t.asset_id) else none
    market_name := strOr mi.question (strOr t.market t.market_name)
    side := normSideFull t.side
    share_type := mi.outcome
    price := priceQ
    usd_amount := usd
    shares := sharesQ
    timestamp := ts
    market_question := mi.question
    market_outcome := mi.outcome
    market_tags := tagsJson mi.tags
    market_target_price := safe_float mi.target_price
    market_resolved := if mi.resolved.truthy then 1 else 0
    market_is_winner := if mi.is_winner.truthy then 1 else 0
    market_resolved_price := safe_float mi.resolved_price
    raw := t
  }

/-! ## The Persistent Store (`src/backend/models.py`, `src/backend/crud.py`)

The database is a value of type `Db`; each CRUD function threads it
explicitly.  `datetime.utcnow().isoformat()` reads become `now` arguments.
SQLite value comparison honours storage classes (an INTEGER never equals a
TEXT), which `PyVal` equality models; `NULL` sorts below every value, which
the option orderings model. -/

/-- A `tracked_wallets` row. -/
structure TrackedWallet where
  wallet_address : String
  custom_name : Option String
  main_market : Option String
  alerts_enabled : ℤ
  created_at : String
  deriving DecidableEq, Repr

/-- A `trades` row: the normalized draft plus the ingestion timestamp.  The
`raw_json` audit blob is the payload preserved verbatim (its JSON dump is
kept as the `raw` field of the draft). -/
structure StoredTrade extends NormalizedTrade where
  created_at : String
  deriving DecidableEq, Repr

/-- An `alert_log` row (the autoincrement id is the list position). -/
structure AlertLogRow where
  trade_uid : PyVal
  wallet_address : String
  sent_to : String
  sent_at : String
  status : String
  error_message : Option String
  deriving DecidableEq, Repr

/-- The whole store. -/
structure Db where
  wallets : List TrackedWallet
  trades : List StoredTrade
  alert_log : List AlertLogRow
  deriving DecidableEq, Repr

/-- The empty store. -/
def Db.empty : Db := ⟨[], [], []⟩

/-- `crud.get_tracked_wallets` (`crud.py:15-17`): offset/limit page of the
wallet table (defaults 0/100). -/
def get_tracked_wallets (db : Db) (skip : ℕ := 0) (limit : ℕ := 100) :
    List TrackedWallet :=
  (db.wallets.drop skip).take limit

/-- `crud.get_wallet` (`crud.py:20-22`). -/
def get_wallet (db : Db) (wallet_address : String) : Option TrackedWallet :=
  db.wallets.find? (fun w => w.wallet_address = wallet_address)

/-- `crud.get_wallet_by_name` (`crud.py:25-27`). -/
def get_wallet_by_name (db : Db) (custom_name : String) : Option TrackedWallet :=
  db.wallets.find? (fun w => w.custom_name = some custom_name)

/-- `crud.create_wallet` (`crud.py:30-48`). -/
def create_wallet (now : String) (db : Db) (wallet_address : String)
    (custom_name : Option String := none) (main_market : Option String := none)
    (alerts_enabled : Bool := true) : TrackedWallet × Db :=
  let w : TrackedWallet :=
    ⟨wallet_address, custom_name, main_market, if alerts_enabled then 1 else 0, now⟩
  (w, { db with wallets := db.wallets ++ [w] })

/-- `crud.update_wallet` (`crud.py:51-72`): `None` arguments leave the field
unchanged; returns `none` when the wallet is unknown. -/
def update_wallet (db : Db) (wallet_address : String)
    (custom_name : Option String) (main_market : Option String)
    (alerts_enabled : Option Bool) : Option TrackedWallet × Db :=
  match get_wallet db wallet_address with
  | none => (none, db)
  | some w =>
    let w1 : TrackedWallet :=
      { w with
        custom_name := match custom_name with
          | some c => some c
          | none => w.custom_name
        main_market := match main_market with
          | some m => some m
          | none => w.main_market
        alerts_enabled :=
          match alerts_enabled with
          | some b => if b then 1 else 0
          | none => w.alerts_enabled }
    let ws := db.wallets.map (fun x => if x.wallet_address = wallet_address then w1 else x)
    (some w1, { db with wallets := ws })

/-- `crud.delete_wallet` (`crud.py:75-83`) with the `cascade="all,
delete-orphan"` relationship of `models.py`: deleting a wallet removes its
trades. -/
def delete_wallet (db : Db) (wallet_address : String) : Bool × Db :=
  match get_wallet db wallet_address with
  | none => (false, db)
  | some _ =>
    (true,
      { db with
        wallets := db.wallets.filter (fun w => w.wallet_address ≠ wallet_address)
        trades := db.trades.filter (fun t => t.wallet_address ≠ wallet_address) })

/-- `crud.get_trade` (`crud.py:174-176`). -/
def get_trade (db : Db) (trade_uid : PyVal) : Option StoredTrade :=
  db.trades.find? (fun t => t.trade_uid = trade_uid)

/-- `crud.create_trade` (`crud.py:179-219`): insert-if-absent keyed on
`trade_uid`; `none` signals "already exists". -/
def create_trade (now : String) (db : Db) (data : NormalizedTrade) :
    Option StoredTrade × Db :=
  match get_trade db data.trade_uid with
  | some _ => (none, db)
  | none =>
    let st : StoredTrade := ⟨data, now⟩
    (some st, { db with trades := db.trades ++ [st] })

/-- `crud.bulk_create_trades` (`crud.py:222-248`): insert-if-absent over a
batch, counting `{imported, skipped, total}`. -/
def bulk_create_trades (now : String) (db : Db) (datas : List NormalizedTrade) :
    Db × ℕ × ℕ × ℕ :=
  let step := fun (acc : Db × ℕ × ℕ) (d : NormalizedTrade) =>
    match create_trade now acc.1 d with
    | (some _, db1) => (db1, acc.2.1 + 1, acc.2.2)
    | (none, db1) => (db1, acc.2.1, acc.2.2 + 1)
  let r := datas.foldl step (db, 0, 0)
  (r.1, r.2.1, r.2.2, datas.length)

/-- The sortable-column whitelist of `crud.get_trades` (`crud.py:147-156`). -/
inductive SortCol : Type
  | timestamp | side | share_type | market | price | usd_amount | shares | wallet
  deriving DecidableEq, Repr

/-- The `sort_column_map` lookup. -/
def sortColOf : String → Option SortCol
  | "timestamp" => some .timestamp
  | "side" => some .side
  | "share_type" => some .share_type
  | "market" => some .market
  | "price" => some .price
  | "usd_amount" => some .usd_amount
  | "shares" => some .shares
  | "wallet" => some .wallet
  | _ => none

/-- `NULL` sorts below every value (SQLite ordering of nullable columns). -/
def optLe {α : Type} (le : α → α → Bool) : Option α → Option α → Bool
  | none, _ => true
  | some _, none => false
  | some a, some b => le a b

/-- Ascending comparison for one sortable column. -/
def colLe (c : SortCol) (a b : StoredTrade) : Bool :=
  match c with
  | .timestamp => decide (a.timestamp ≤ b.timestamp)
  | .side => optLe (fun x y => decide (x ≤ y)) a.side b.side
  | .share_type => optLe (fun x y => decide (x ≤ y)) a.share_type b.share_type
  | .market => optLe (fun x y => decide (x ≤ y)) a.market_name b.market_name
  | .price => optLe (fun x y => decide (x ≤ y)) a.price b.price
  | .usd_amount => optLe (fun x y => decide (x ≤ y)) a.usd_amount b.usd_amount
  | .shares => optLe (fun x y => decide (x ≤ y)) a.shares b.shares
  | .wallet => decide (a.wallet_address ≤ b.wallet_address)

/-- Python truthiness of an optional string parameter (`if param:`). -/
def strTruthy : Option String → Bool
  | none => false
  | some s => s != ""

/-- `crud.get_trades` (`crud.py:90-171`): filters, then the total count, then
sorting (whitelisted column, `desc` unless `sort_order` is `asc`, default
timestamp descending), then `offset/limit` pagination.  Returns
`(page, total_count)`; the count is taken before pagination.  Ties are
returned in a deterministic (stable) order, one of the orders SQLite may
produce. -/
def get_trades (db : Db)
    (wallet_address : Option String := none) (side : Option String := none)
    (min_price : Option ℚ := none) (max_price : Option ℚ := none)
    (min_usd : Option ℚ := none) (max_usd : Option ℚ := none)
    (market : Option String := none)
    (sort_by : Option String := none) (sort_order : Option String := some "desc")
    (skip : ℕ := 0) (limit : ℕ := 50) : List StoredTrade × ℕ :=
  let q0 := db.trades
  let q1 :=
    if strTruthy wallet_address then
      let w := wallet_address.getD ""
      match get_wallet_by_name db w with
      | some tw => q0.filter (fun (t : StoredTrade) => t.wallet_address = tw.wallet_address)
      | none => q0.filter (fun (t : StoredTrade) => t.wallet_address = w)
    else q0
  let q2 :=
    if strTruthy side then
      q1.filter (fun (t : StoredTrade) => t.side = some (asciiLower (side.getD "")))
    else q1
  let q3 := match min_price with
    | some m => q2.filter (fun (t : StoredTrade) => (t.price.map (fun x => decide (m ≤ x))).getD false)
    | none => q2
  let q4 := match max_price with
    | some m => q3.filter (fun (t : StoredTrade) => (t.price.map (fun x => decide (x ≤ m))).getD false)
    | none => q3
  let q5 := match min_usd with
    | some m => q4.filter (fun (t : StoredTrade) => (t.usd_amount.map (fun x => decide (m ≤ x))).getD false)
    | none => q4
  let q6 := match max_usd with
    | some m => q5.filter (fun (t : StoredTrade) => (t.usd_amount.map (fun x => decide (x ≤ m))).getD false)
    | none => q5
  let q7 :=
    if strTruthy market then
      let m := asciiLower (market.getD "")
      q6.filter (fun (t : StoredTrade) =>
        match t.market_name with
        | some name => decide (m.data <:+: (asciiLower name).data)
        | none => false)
    else q6
  let total_count := q7.length
  let sorted :=
    match sort_by.bind sortColOf with
    | some col =>
      if strTruthy sort_order ∧ asciiLower (sort_order.getD "") = "asc" then
        q7.mergeSort (colLe col)
      else
        q7.mergeSort (fun a b => colLe col b a)
    | none => q7.mergeSort (fun a b => decide (b.timestamp ≤ a.timestamp))
  ((sorted.drop skip).take limit, total_count)

/-- `crud.get_distinct_markets` (`crud.py:251-259`). -/
def get_distinct_markets (db : Db) (wallet_address : Option String := none) :
    List String :=
  let q := match wallet_address with
    | some w => db.trades.filter (fun (t : StoredTrade) => t.wallet_address = w)
    | none => db.trades
  (((q.map (fun (t : StoredTrade) => t.market_name)).eraseDups.filterMap id).filter
      (fun s => s ≠ "")).mergeSort (fun a b => decide (a ≤ b))

/-- `crud.create_alert_log` (`crud.py:266-286`): append one attempt row. -/
def create_alert_log (now : String) (db : Db) (trade_uid : PyVal)
    (wallet_address sent_to status : String) (error_message : Option String) :
    Db :=
  { db with alert_log :=
      db.alert_log ++ [⟨trade_uid, wallet_address, sent_to, now, status, error_message⟩] }

/-- `crud.was_alert_sent` (`crud.py:289-291`): any row for the uid counts. -/
def was_alert_sent (db : Db) (trade_uid : PyVal) : Bool :=
  (db.alert_log.find? (fun a => a.trade_uid = trade_uid)).isSome

/-! ## The Poller (`src/backend/poller.py`) and the upstream fetch boundary -/

/-- `TradePoller.should_send_alert` (`poller.py:149-155`): suppress only when
`trade.usd_amount` is truthy (present *and* nonzero) and below the configured
minimum. -/
def should_send_alert (min_trade_size_usd : ℚ) (t : StoredTrade) : Bool :=
  match t.usd_amount with
  | some x => if x ≠ 0 ∧ x < min_trade_size_usd then false else true
  | none => true

/-- `TradePoller.send_alert` (`poller.py:157-203`).  `notifier` stands for
`EmailNotifier.send_trade_alert` (success flag and error detail — it never
raises); the returned `Bool` records whether a send was attempted.  A prior
`AlertLog` row for the uid short-circuits: no send, no new row. -/
def send_alert (notifier : PyVal → Bool × Option String) (now email_to : String)
    (db : Db) (w : TrackedWallet) (t : StoredTrade) : Bool × Db :=
  if was_alert_sent db t.trade_uid then (false, db)
  else
    let r := notifier t.trade_uid
    (true,
      create_alert_log now db t.trade_uid w.wallet_address email_to
        (if r.1 then "success" else "failed")
        (if r.1 then none else r.2))

/-- `TradePoller.poll_wallet` (`poller.py:101-147`), after the fetch: each
fetched draft goes through `create_trade`; a genuinely new row is alerted when
the wallet has alerts enabled and the policy passes. -/
def poll_wallet (notifier : PyVal → Bool × Option String)
    (min_trade_size_usd : ℚ) (now email_to : String) (db : Db)
    (w : TrackedWallet) (fetched : List NormalizedTrade) : Db :=
  fetched.foldl
    (fun d td =>
      match create_trade now d td with
      | (some st, d1) =>
        if w.alerts_enabled ≠ 0 ∧ should_send_alert min_trade_size_usd st then
          (send_alert notifier now email_to d1 w st).2
        else d1
      | (none, d1) => d1)
    db

/-- The historically-observed upstream response shapes
(`hashdive.py:70-80`): a flat list, `{"data": [...]}`, `{"trades": [...]}`,
or anything else (which yields no trades). -/
inductive ApiResponse : Type
  | rlist (l : List RawTrade)
  | rdata (l : List RawTrade)
  | rtrades (l : List RawTrade)
  | rother
  deriving Repr

/-- Shape-sniffing of `HashdiveClient.get_trades`. -/
def extractTrades : ApiResponse → List RawTrade
  | .rlist l => l
  | .rdata l => l
  | .rtrades l => l
  | .rother => []

/-- `HashdiveClient.get_trades` (`hashdive.py:32-97`): the HTTP call is the
`http` argument (`.error` for a raised `RequestException` or any other
exception).  Every exception — network failure or a normalization error —
is caught and turns into the empty list. -/
def hashdive_get_trades (hash : String → String) (now : DateTime)
    (http : Except String ApiResponse) (wallet_address : String) :
    List NormalizedTrade :=
  match http with
  | .error _ => []
  | .ok resp =>
    match (extractTrades resp).mapM (fun tr => normalize_trade hash now tr wallet_address) with
    | .ok l => l
    | .error _ => []

/-- The wallet loop of `poll_once`: each wallet in listed order under the
per-wallet `try/except` — a wallet whose processing raises leaves the store
as it was and the loop continues with the next wallet. -/
def pollFold (process : TrackedWallet → Db → Except String Db)
    (ws : List TrackedWallet) (db : Db) : Db :=
  ws.foldl
    (fun d w =>
      match process w d with
      | .ok d1 => d1
      | .error _ => d)
    db

/-- `TradePoller.poll_once` (`poller.py:72-99`): read the tracked wallets
(first registry page), then run the guarded per-wallet loop. -/
def poll_once (process : TrackedWallet → Db → Except String Db) (db : Db) : Db :=
  pollFold process (get_tracked_wallets db) db

/-- One wallet's processing step as `poll_once` runs it: fetch through the
Hashdive client (`http` maps wallet address to the HTTP outcome), then
`poll_wallet`.  Total — the client swallows its exceptions — but typed as
`Except` exactly because `poll_once` guards each wallet. -/
def poll_wallet_step (hash : String → String) (nowD : DateTime)
    (notifier : PyVal → Bool × Option String) (min_trade_size_usd : ℚ)
    (now email_to : String) (http : String → Except String ApiResponse)
    (w : TrackedWallet) (db : Db) : Except String Db :=
  .ok (poll_wallet notifier min_trade_size_usd now email_to db w
        (hashdive_get_trades hash nowD (http w.wallet_address) w.wallet_address))

/-! ## The query API surface (`src/backend/main.py`) -/

/-- A raised `HTTPException`: explicit status code plus structured detail —
never a bare stack trace. -/
structure HTTPError where
  status : ℕ
  detail : String
  deriving DecidableEq, Repr

/-- The `POST /favorites` request body. -/
structure WalletCreate where
  wallet_address : String
  custom_name : Option String := none
  main_market : Option String := none
  alerts_enabled : Bool := true
  deriving DecidableEq, Repr

/-- The `PATCH /favorites/{addr}` request body. -/
structure WalletUpdate where
  custom_name : Option String := none
  main_market : Option String := none
  alerts_enabled : Option Bool := none
  deriving DecidableEq, Repr

/-- `create_favorite` (`main.py:184-205`): duplicate registration raises
`HTTPException(400, "Wallet already tracked")`, otherwise the wallet is
created. -/
def create_favorite (now : String) (db : Db) (wallet : WalletCreate) :
    Except HTTPError (TrackedWallet × Db) :=
  if (get_wallet db wallet.wallet_address).isSome then
    .error ⟨400, "Wallet already tracked"⟩
  else
    .ok (create_wallet now db wallet.wallet_address wallet.custom_name
          wallet.main_market wallet.alerts_enabled)

/-- `update_favorite` (`main.py:208-227`): unknown wallet raises
`HTTPException(404, "Wallet not found")`. -/
def update_favorite (db : Db) (wallet_address : String) (updates : WalletUpdate) :
    Except HTTPError (TrackedWallet × Db) :=
  match update_wallet db wallet_address updates.custom_name updates.main_market
      updates.alerts_enabled with
  | (some w, db1) => .ok (w, db1)
  | (none, _) => .error ⟨404, "Wallet not found"⟩

/-- `delete_favorite` (`main.py:230-248`): `exc` is the unexpected exception
the wrapped crud call may raise (`none` when it completes).  Unknown wallet →
404; an unexpected exception → a structured 500, re-raised `HTTPException`s
pass through. -/
def delete_favorite (db : Db) (wallet_address : String) (exc : Option String) :
    Except HTTPError Db :=
  match exc with
  | some e => .error ⟨500, "Error deleting wallet: " ++ e⟩
  | none =>
    match delete_wallet db wallet_address with
    | (true, db1) => .ok db1
    | (false, _) => .error ⟨404, "Wallet not found"⟩

/-- `fetch_wallet_trade_history` (`main.py:251-307`), store side: unknown
wallet → 404, otherwise bulk-import the fetched trades and report
`{imported, skipped, total}`. -/
def fetch_wallet_trade_history (hash : String → String) (nowD : DateTime)
    (now : String) (http : Except String ApiResponse) (db : Db)
    (wallet_address : String) : Except HTTPError (Db × ℕ × ℕ × ℕ) :=
  if (get_wallet db wallet_address).isNone then
    .error ⟨404, "Wallet not tracked. Add it first."⟩
  else
    let trades := hashdive_get_trades hash nowD http wallet_address
    if trades = [] then .ok (db, 0, 0, 0)
    else .ok (bulk_create_trades now db trades)

/-- The `GET /trades` response envelope (`TradesQueryResponse`). -/
structure TradesPage where
  items : List StoredTrade
  total_results : ℕ
  total_pages : ℕ
  current_page : ℕ
  page_size : ℕ
  deriving DecidableEq, Repr

/-- The `GET /trades` endpoint (`main.py:317-363`): offset `(page-1) *
page_size`, then `crud.get_trades`, then `total_pages = (total + page_size -
1) // page_size`. -/
def api_get_trades (db : Db)
    (wallet : Option String := none) (side : Option String := none)
    (min_price : Option ℚ := none) (max_price : Option ℚ := none)
    (min_usd : Option ℚ := none) (max_usd : Option ℚ := none)
    (market : Option String := none)
    (sort_by : Option String := none) (sort_order : Option String := some "desc")
    (page : ℕ := 1) (page_size : ℕ := 50) : TradesPage :=
  let skip := (page - 1) * page_size
  let r := get_trades db wallet side min_price max_price min_usd max_usd market
    sort_by sort_order skip page_size
  { items := r.1
    total_results := r.2
    total_pages := (r.2 + page_size - 1) / page_size
    current_page := page
    page_size := page_size }

/-! ## Decoding the uid string

A decoder for the `json.dumps(uid_data, sort_keys=True)` text.  It exists
purely as a verification artifact: running it left-inverse to the serializer
proves the serialized string injective in the six identifying fields, which
is what makes the fallback identifier field-sensitive. -/

/-- Consume an expected literal prefix. -/
def expectLit : List Char → List Char → Option (List Char)
  | [], cs => some cs
  | l :: ls, c :: cs => if c = l then expectLit ls cs else none
  | _ :: _, [] => none

/-- Split a char list at the first `'"'` (the closing quote of a JSON string
without escapes). -/
def breakAtQuote : List Char → Option (List Char × List Char)
  | [] => none
  | c :: cs =>
    if c = '"' then some ([], cs)
    else
      match breakAtQuote cs with
      | some r => some (c :: r.1, r.2)
      | none => none

/-- Characters a JSON number token is made of (no exponents here). -/
def numCh (c : Char) : Bool := isDigitCh c || c = '.' || c = '-'

/-- Split a char list at the first `'.'`, if any. -/
def splitAtDot : List Char → List Char × Option (List Char)
  | [] => ([], none)
  | c :: cs =>
    if c = '.' then ([], some cs)
    else
      let r := splitAtDot cs
      (c :: r.1, r.2)

/-- Decode the digits of a number token (sign already consumed): no dot means
an int, a dot means a float whose exponent is the fraction length — except
that the fraction `0` marks the `repr` of a whole float. -/
def decodeDigits (neg : Bool) (body : List Char) : Option PyVal :=
  let sgn : ℕ → ℤ := fun n => if neg then -(n : ℤ) else (n : ℤ)
  match splitAtDot body with
  | (ds, none) =>
    if ds ≠ [] ∧ ds.all isDigitCh then some (.pint (sgn (digitsVal ds))) else none
  | (is, some fs) =>
    if is ≠ [] ∧ fs ≠ [] ∧ is.all isDigitCh ∧ fs.all isDigitCh then
      if fs = ['0'] then some (.pfloat (sgn (digitsVal is)) 0)
      else some (.pfloat (sgn (digitsVal is * 10 ^ fs.length + digitsVal fs)) fs.length)
    else none

/-- Decode one JSON number token. -/
def decodeNum (cs : List Char) : Option PyVal :=
  if cs.head? = some '-' then decodeDigits true cs.tail
  else decodeDigits false cs

/-- Take one JSON scalar off the front of a char list. -/
def parseVal (cs : List Char) : Option (PyVal × List Char) :=
  if cs.head? = some '"' then
    (breakAtQuote cs.tail).map (fun r => (.pstr (String.mk r.1), r.2))
  else if cs.head? = some 'n' then
    (expectLit "null".data cs).map (fun r => (.pnone, r))
  else
    let tok := cs.takeWhile numCh
    (decodeNum tok).map (fun v => (v, cs.dropWhile numCh))

/-- Decode a whole uid string back into the six identifying fields. -/
def parseUid (cs : List Char) :
    Option (PyVal × PyVal × PyVal × PyVal × PyVal × String) := do
  let cs ← expectLit "\x7b\"amount\": ".data cs
  let (amount, cs) ← parseVal cs
  let cs ← expectLit ", \"asset\": ".data cs
  let (asset, cs) ← parseVal cs
  let cs ← expectLit ", \"price\": ".data cs
  let (price, cs) ← parseVal cs
  let cs ← expectLit ", \"side\": ".data cs
  let (side, cs) ← parseVal cs
  let cs ← expectLit ", \"timestamp\": ".data cs
  let (ts, cs) ← parseVal cs
  let cs ← expectLit ", \"wallet\": ".data cs
  let (wv, cs) ← parseVal cs
  match wv, cs with
  | .pstr w, ['\x7d'] => some (amount, asset, price, side, ts, w)
  | _, _ => none

/-- A string is plain when `json.dumps` quotes it without any escapes: no
quote, no backslash (normal wallet addresses, asset ids, timestamps and side
codes all qualify). -/
def plainStrB (s : String) : Bool :=
  s.data.all (fun c => c != '"' && c != '\\')

/-- A float representation `m / 10^p` is canonical when the exponent is
fully reduced (`repr` never prints a fractional part ending in zero).  Every
Python float has exactly one canonical decimal form of this shape. -/
def canonFB (m : ℤ) (p : ℕ) : Bool :=
  p == 0 || (0 < p && m % 10 != 0)

/-- A scalar is a normal input for identifier hashing: strings quote without
escapes, floats are in canonical decimal form. -/
def jsonOkB : PyVal → Bool
  | .pnone => true
  | .pint _ => true
  | .pfloat m p => canonFB m p
  | .pstr s => plainStrB s

/-- All six resolved identifying fields of a raw trade are normal inputs. -/
def uidFieldsOkB (t : RawTrade) (wallet : String) : Bool :=
  jsonOkB t.uidAmount && jsonOkB t.uidAsset && jsonOkB t.price &&
  jsonOkB (sideVal t.side) && jsonOkB t.timestamp && plainStrB wallet

/-! ## Concrete fixtures for witnesses and counterexamples -/

/-- A fixed `utcnow` reading for concrete runs. -/
def dt0 : DateTime := ⟨2026, 2, 1, 12, 0, 0⟩

/-- A concrete normalized trade draft. -/
def sampleNorm : NormalizedTrade where
  trade_uid := .pstr "uid-1"
  wallet_address := "0xabc"
  asset_id := some "a1"
  market_name := some "Will it rain"
  side := some "buy"
  share_type := some "Yes"
  price := some (1 / 2)
  usd_amount := some 150
  shares := some 300
  timestamp := "2026-01-14T17:47:00"
  market_question := none
  market_outcome := none
  market_tags := "[]"
  market_target_price := none
  market_resolved := 0
  market_is_winner := 0
  market_resolved_price := none
  raw := RawTrade.empty

/-- A stored trade whose usd notional is the meaningful value zero. -/
def zeroUsdTrade : StoredTrade where
  toNormalizedTrade :=
    { sampleNorm with trade_uid := .pstr "uid-z", usd_amount := some 0 }
  created_at := "2026-02-01T12:00:00"

/-- A raw record that supplies `usd_amount = 0` upstream together with a
price and a share count. -/
def zeroUsdRaw : RawTrade :=
  { RawTrade.empty with
    id := .pstr "x1", usd_amount := .pint 0, price := .pint 2,
    shares := .pint 3, side := some "b", timestamp := .pstr "1/14/2026 17:47" }

/-- The `i`-th of 120 stored trades, with pairwise distinct usd notionals
`i + 1`. -/
def mkTrade (i : ℕ) : StoredTrade where
  toNormalizedTrade :=
    { sampleNorm with
      trade_uid := .pint (i : ℤ), usd_amount := some ((i : ℚ) + 1),
      timestamp := "2026-01-01T00:00:00" }
  created_at := "c"

/-- A store holding exactly 120 trades. -/
def db120 : Db := ⟨[], (List.range 120).map mkTrade, []⟩

/-- Three tracked wallets for the poll-cycle fixtures. -/
def walletA : TrackedWallet := ⟨"0xA", none, none, 1, "c"⟩

def walletB : TrackedWallet := ⟨"0xB", none, none, 1, "c"⟩

def walletC : TrackedWallet := ⟨"0xC", none, none, 1, "c"⟩

/-- A raw upstream record carrying an explicit id and a large notional. -/
def rawFor (uid : String) : RawTrade :=
  { RawTrade.empty with
    id := .pstr uid, usd_amount := .pint 500, price := .pint 1,
    shares := .pint 500, side := some "b",
    timestamp := .pstr "1/14/2026 17:47" }

/-- An HTTP layer whose call for wallet `0xB` raises while the calls for
`0xA` and `0xC` return one-trade payloads (in two of the observed shapes). -/
def httpBFails : String → Except String ApiResponse := fun addr =>
  if addr = "0xB" then .error "connection refused"
  else if addr = "0xA" then .ok (.rlist [rawFor "tA"])
  else .ok (.rdata [rawFor "tC"])

/-- The three-wallet store for the cycle-isolation run. -/
def db3 : Db := ⟨[walletA, walletB, walletC], [], []⟩

/-- A notifier whose transport always succeeds. -/
def okNotifier : PyVal → Bool × Option String := fun _ => (true, none)

/-- A notifier whose transport always fails with a structured error. -/
def failNotifier : PyVal → Bool × Option String :=
  fun _ => (false, some "SMTP connection failed")

/-- A store that already tracks wallet `0xA`. -/
def db9 : Db := ⟨[walletA], [], []⟩

/-- A registration request for the already-tracked wallet `0xA`. -/
def dupReq : WalletCreate := ⟨"0xA", none, none, true⟩

/-- Two raw trades differing only in their price field (for the identifier
field-sensitivity witness). -/
def rawP1 : RawTrade := { RawTrade.empty with price := .pint 1 }

def rawP2 : RawTrade := { RawTrade.empty with price := .pint 2 }

/-- The concrete normalizer output for `zeroUsdRaw` (well-defined because the
run succeeds; see the witnesses using it). -/
def normalizeResult0 : NormalizedTrade :=
  (normalize_trade id dt0 zeroUsdRaw "0xabc").toOption.getD sampleNorm

/-- A per-wallet processing step that raises exactly on wallet `0xB`
(modelling an exception inside `poll_wallet`). -/
def procBad : TrackedWallet → Db → Except String Db := fun w d =>
  if w.wallet_address = "0xB" then .error "boom" else .ok d

/-! # Proofs

## Decimal digit strings -/

theorem digitVal_digitChar {d : ℕ} (h : d < 10) : digitVal (digitChar d) = d := by
  interval_cases d <;> rfl

theorem isDigitCh_digitChar {d : ℕ} (h : d < 10) : isDigitCh (digitChar d) = true := by
  interval_cases d <;> rfl

theorem natDigits_ne_nil (n : ℕ) : natDigits n ≠ [] := by
  unfold natDigits
  split <;> simp

theorem natDigits_all (n : ℕ) : (natDigits n).all isDigitCh = true := by
  induction n using Nat.strong_induction_on with
  | _ n ih =>
    unfold natDigits
    split
    · next h => simp [isDigitCh_digitChar h]
    · next h =>
      rw [List.all_append]
      have h1 := ih (n / 10) (Nat.div_lt_self (by omega) (by omega))
      have h2 := isDigitCh_digitChar (Nat.mod_lt n (show 0 < 10 by omega))
      simp [h1, h2]

theorem digitsVal_append_singleton (xs : List Char) (c : Char) :
    digitsVal (xs ++ [c]) = 10 * digitsVal xs + digitVal c := by
  unfold digitsVal
  rw [List.foldl_append]
  rfl

theorem digitsVal_natDigits (n : ℕ) : digitsVal (natDigits n) = n := by
  induction n using Nat.strong_induction_on with
  | _ n ih =>
    unfold natDigits
    split
    · next h =>
      simp [digitsVal, digitVal_digitChar h]
    · next h =>
      rw [digitsVal_append_singleton,
        ih (n / 10) (Nat.div_lt_self (by omega) (by omega)),
        digitVal_digitChar (Nat.mod_lt n (show 0 < 10 by omega))]
      omega

theorem natDigits_length_le {n p : ℕ} (hp : 0 < p) (h : n < 10 ^ p) :
    (natDigits n).length ≤ p := by
  induction n using Nat.strong_induction_on generalizing p with
  | _ n ih =>
    unfold natDigits
    split
    · next hn => simpa using hp
    · next hn =>
      have hp2 : 2 ≤ p := by
        by_contra hc
        have : p = 1 := by omega
        subst this
        simp at h
        omega
      have hdiv : n / 10 < 10 ^ (p - 1) := by
        have h10 : (0:ℕ) < 10 := by omega
        rw [Nat.div_lt_iff_lt_mul h10]
        have : 10 ^ (p - 1) * 10 = 10 ^ p := by
          rw [← pow_succ]
          congr 1
          omega
        omega
      have := ih (n / 10) (Nat.div_lt_self (by omega) (by omega))
        (p := p - 1) (by omega) hdiv
      rw [List.length_append]
      simp only [List.length_cons, List.length_nil]
      omega

theorem digitsVal_cons_zero (ds : List Char) :
    digitsVal ('0' :: ds) = digitsVal ds := by
  unfold digitsVal
  rfl

theorem digitsVal_replicate_append (k : ℕ) (ds : List Char) :
    digitsVal (List.replicate k '0' ++ ds) = digitsVal ds := by
  induction k with
  | zero => simp
  | succ k ih =>
    rw [List.replicate_succ, List.cons_append, digitsVal_cons_zero, ih]

theorem digitsVal_zeroPad (p : ℕ) (ds : List Char) :
    digitsVal (zeroPad p ds) = digitsVal ds := by
  unfold zeroPad
  exact digitsVal_replicate_append _ _

theorem zeroPad_length {p : ℕ} {ds : List Char} (h : ds.length ≤ p) :
    (zeroPad p ds).length = p := by
  simp [zeroPad]
  omega

theorem zeroPad_all {p : ℕ} {ds : List Char} (h : ds.all isDigitCh = true) :
    (zeroPad p ds).all isDigitCh = true := by
  simp only [zeroPad, List.all_append, Bool.and_eq_true]
  refine ⟨?_, h⟩
  rw [List.all_eq_true]
  intro c hc
  rw [List.eq_of_mem_replicate hc]
  rfl

/-! ## Character classes, splitting, literal prefixes -/

theorem ne_of_isDigitCh {c x : Char} (h : isDigitCh c = true)
    (hx : isDigitCh x = false) : c ≠ x := by
  intro he
  subst he
  rw [h] at hx
  simp at hx

theorem numCh_of_isDigitCh {c : Char} (h : isDigitCh c = true) : numCh c = true := by
  simp [numCh, h]

theorem splitAtDot_no_dot {cs : List Char} (h : ∀ c ∈ cs, c ≠ '.') :
    splitAtDot cs = (cs, none) := by
  induction cs with
  | nil => rfl
  | cons c cs ih =>
    unfold splitAtDot
    rw [if_neg (h c (by simp))]
    rw [ih (fun x hx => h x (by simp [hx]))]

theorem splitAtDot_append {xs : List Char} (ys : List Char)
    (h : ∀ c ∈ xs, c ≠ '.') :
    splitAtDot (xs ++ '.' :: ys) = (xs, some ys) := by
  induction xs with
  | nil => simp [splitAtDot]
  | cons c cs ih =>
    simp only [List.cons_append]
    unfold splitAtDot
    rw [if_neg (h c (by simp))]
    rw [ih (fun x hx => h x (by simp [hx]))]

theorem takeWhile_append_stop {p : Char → Bool} {xs ys : List Char}
    (hx : ∀ c ∈ xs, p c = true) (hy : ∀ c, ys.head? = some c → p c = false) :
    (xs ++ ys).takeWhile p = xs ∧ (xs ++ ys).dropWhile p = ys := by
  induction xs with
  | nil =>
    simp only [List.nil_append]
    cases ys with
    | nil => simp
    | cons y ys =>
      have hpy := hy y rfl
      simp [List.takeWhile_cons, List.dropWhile_cons, hpy]
  | cons c cs ih =>
    have hc := hx c (by simp)
    have ih1 := ih (fun x hxm => hx x (by simp [hxm]))
    simp only [List.cons_append, List.takeWhile_cons, List.dropWhile_cons, hc]
    simp [ih1.1, ih1.2]

theorem expectLit_append (lit rest : List Char) :
    expectLit lit (lit ++ rest) = some rest := by
  induction lit with
  | nil => rfl
  | cons c cs ih => simp [expectLit, ih]

theorem breakAtQuote_append {s : List Char} (rest : List Char)
    (h : ∀ c ∈ s, c ≠ '"') :
    breakAtQuote (s ++ '"' :: rest) = some (s, rest) := by
  induction s with
  | nil => simp [breakAtQuote]
  | cons c cs ih =>
    simp only [List.cons_append, breakAtQuote]
    rw [if_neg (h c (by simp))]
    have hrec := ih (fun x hx => h x (by simp [hx]))
    simp [hrec]

theorem escFlatten_plain {l : List Char}
    (h : ∀ c ∈ l, (c != '"' && c != '\\') = true) :
    (l.map escCh).flatten = l := by
  induction l with
  | nil => rfl
  | cons c cs ih =>
    have hc := h c (by simp)
    simp only [Bool.and_eq_true, bne_iff_ne, ne_eq] at hc
    simp only [List.map_cons, List.flatten_cons]
    rw [ih (fun x hx => h x (by simp [hx]))]
    unfold escCh
    rw [if_neg (by tauto)]
    rfl

theorem jsonQuote_plain {s : String} (h : plainStrB s = true) :
    jsonQuote s = '"' :: (s.data ++ ['"']) := by
  unfold jsonQuote
  unfold plainStrB at h
  rw [List.all_eq_true] at h
  rw [escFlatten_plain h]
  simp

/-! ## Number tokens round-trip -/

theorem natDigits_no_dot (m : ℕ) : ∀ c ∈ natDigits m, c ≠ '.' := by
  intro c hc
  have hall := natDigits_all m
  rw [List.all_eq_true] at hall
  exact ne_of_isDigitCh (hall c hc) (by decide)

theorem natDigits_head_digit (m : ℕ) {c : Char}
    (h : (natDigits m).head? = some c) : isDigitCh c = true := by
  cases hnd : natDigits m with
  | nil => exact absurd hnd (natDigits_ne_nil m)
  | cons c0 cs =>
    rw [hnd] at h
    have hall := natDigits_all m
    rw [hnd, List.all_eq_true] at hall
    simp only [List.head?_cons, Option.some.injEq] at h
    rw [← h]
    exact hall c0 (by simp)

theorem decodeDigits_int (neg : Bool) {ds : List Char}
    (hne : ds ≠ []) (hall : ds.all isDigitCh = true) :
    decodeDigits neg ds =
      some (.pint (if neg then -(digitsVal ds : ℤ) else (digitsVal ds : ℤ))) := by
  have hnd : ∀ c ∈ ds, c ≠ '.' := by
    intro c hc
    rw [List.all_eq_true] at hall
    exact ne_of_isDigitCh (hall c hc) (by decide)
  unfold decodeDigits
  rw [splitAtDot_no_dot hnd]
  simp [hne, hall]

theorem decodeNum_intRepr (n : ℤ) : decodeNum (intRepr n) = some (.pint n) := by
  unfold intRepr
  by_cases hn : n < 0
  · rw [if_pos hn]
    unfold decodeNum
    simp only [List.head?_cons, if_pos rfl, List.tail_cons]
    rw [decodeDigits_int true (natDigits_ne_nil _) (natDigits_all _)]
    simp only [digitsVal_natDigits, if_true, Option.some.injEq, PyVal.pint.injEq]
    omega
  · rw [if_neg hn]
    unfold decodeNum
    have hhead : (natDigits n.toNat).head? ≠ some '-' := by
      intro h
      have := natDigits_head_digit n.toNat h
      exact absurd this (by decide)
    rw [if_neg hhead]
    rw [decodeDigits_int false (natDigits_ne_nil _) (natDigits_all _)]
    simp only [digitsVal_natDigits, Bool.false_eq_true, if_false,
      Option.some.injEq, PyVal.pint.injEq]
    omega

theorem zeroPadDigits_spec {p a : ℕ} (hp : 0 < p) (ha : a < 10 ^ p) :
    (zeroPad p (natDigits a)).length = p ∧
    (zeroPad p (natDigits a)).all isDigitCh = true ∧
    digitsVal (zeroPad p (natDigits a)) = a ∧
    zeroPad p (natDigits a) ≠ [] := by
  have hlen := zeroPad_length (natDigits_length_le hp ha)
  refine ⟨hlen, zeroPad_all (natDigits_all a), ?_, ?_⟩
  · rw [digitsVal_zeroPad, digitsVal_natDigits]
  · intro h
    rw [h] at hlen
    simp at hlen
    omega

theorem decodeDigits_float (neg : Bool) {a p : ℕ} (hp : 0 < p)
    (hlast : ¬ (10 ∣ a % 10 ^ p)) :
    decodeDigits neg (natDigits (a / 10 ^ p) ++ '.' :: zeroPad p (natDigits (a % 10 ^ p))) =
      some (.pfloat (if neg then -(a : ℤ) else (a : ℤ)) p) := by
  have hmod : a % 10 ^ p < 10 ^ p := Nat.mod_lt _ (Nat.pos_pow_of_pos p (by omega))
  obtain ⟨hlen, hall, hval, hne⟩ := zeroPadDigits_spec hp hmod
  unfold decodeDigits
  rw [splitAtDot_append _ (natDigits_no_dot _)]
  have hfs0 : zeroPad p (natDigits (a % 10 ^ p)) ≠ ['0'] := by
    intro h
    have hzv : digitsVal (zeroPad p (natDigits (a % 10 ^ p))) = 0 := by
      rw [h]; rfl
    rw [hval] at hzv
    exact hlast (by omega)
  simp only [natDigits_ne_nil, hne, natDigits_all, hall, ne_eq,
    not_false_iff, true_and, and_true, if_true, if_neg hfs0]
  rw [hlen, digitsVal_natDigits, hval]
  have hda : a / 10 ^ p * 10 ^ p + a % 10 ^ p = a := by
    rw [Nat.mul_comm]
    exact Nat.div_add_mod a (10 ^ p)
  rw [hda]

theorem decodeDigits_float0 (neg : Bool) (a : ℕ) :
    decodeDigits neg (natDigits a ++ '.' :: ['0']) =
      some (.pfloat (if neg then -(a : ℤ) else (a : ℤ)) 0) := by
  unfold decodeDigits
  rw [splitAtDot_append _ (natDigits_no_dot _)]
  simp [natDigits_ne_nil, natDigits_all, digitsVal_natDigits,
    (by decide : isDigitCh '0' = true)]

theorem floatRepr_head_digit {m : ℤ} {p : ℕ} (hm : ¬ m < 0) {c : Char}
    (h : (floatRepr m p).head? = some c) : isDigitCh c = true := by
  unfold floatRepr at h
  simp only [if_neg hm] at h
  by_cases hp : p = 0
  · rw [if_pos hp] at h
    simp only [List.nil_append, List.head?_append] at h
    cases hh : (natDigits m.natAbs).head? with
    | some c0 =>
      rw [hh] at h
      simp at h
      rw [← h]
      exact natDigits_head_digit _ hh
    | none =>
      cases hnd : natDigits m.natAbs with
      | nil => exact absurd hnd (natDigits_ne_nil _)
      | cons x xs => rw [hnd] at hh; simp at hh
  · rw [if_neg hp] at h
    simp only [List.nil_append, List.head?_append] at h
    cases hh : (natDigits (m.natAbs / 10 ^ p)).head? with
    | some c0 =>
      rw [hh] at h
      simp at h
      rw [← h]
      exact natDigits_head_digit _ hh
    | none =>
      cases hnd : natDigits (m.natAbs / 10 ^ p) with
      | nil => exact absurd hnd (natDigits_ne_nil _)
      | cons x xs => rw [hnd] at hh; simp at hh

theorem decodeNum_floatRepr {m : ℤ} {p : ℕ} (h : canonFB m p = true) :
    decodeNum (floatRepr m p) = some (.pfloat m p) := by
  unfold canonFB at h
  simp only [Bool.or_eq_true, beq_iff_eq, Bool.and_eq_true, decide_eq_true_eq,
    bne_iff_ne, ne_eq] at h
  by_cases hp : p = 0
  · subst hp
    by_cases hm : m < 0
    · have hrepr : floatRepr m 0 = '-' :: (natDigits m.natAbs ++ '.' :: ['0']) := by
        simp [floatRepr, hm]
      rw [hrepr]
      unfold decodeNum
      simp only [List.head?_cons, if_pos rfl, List.tail_cons]
      rw [decodeDigits_float0 true]
      simp only [if_true, Option.some.injEq, PyVal.pfloat.injEq]
      exact ⟨by omega, trivial⟩
    · have hrepr : floatRepr m 0 = natDigits m.natAbs ++ '.' :: ['0'] := by
        simp [floatRepr, hm]
      rw [hrepr]
      unfold decodeNum
      have hhead : (natDigits m.natAbs ++ '.' :: ['0']).head? ≠ some '-' := by
        rw [← hrepr]
        intro hq
        have := floatRepr_head_digit hm hq
        exact absurd this (by decide)
      rw [if_neg hhead]
      rw [decodeDigits_float0 false]
      simp only [Bool.false_eq_true, if_false, Option.some.injEq, PyVal.pfloat.injEq]
      exact ⟨by omega, trivial⟩
  · have hp0 : 0 < p := by omega
    have hmod10 : ¬ (10 ∣ m.natAbs % 10 ^ p) := by
      intro hdvd
      have hdp : (10 : ℕ) ∣ 10 ^ p := dvd_pow_self 10 hp
      have hmm : m.natAbs % 10 ^ p % 10 = m.natAbs % 10 := Nat.mod_mod_of_dvd _ hdp
      obtain ⟨c, hc⟩ := hdvd
      rw [hc] at hmm
      rcases h with h0 | ⟨_, hm10⟩
      · exact hp h0
      · apply hm10
        omega
    by_cases hm : m < 0
    · have hrepr : floatRepr m p = '-' :: (natDigits (m.natAbs / 10 ^ p) ++
          '.' :: zeroPad p (natDigits (m.natAbs % 10 ^ p))) := by
        simp [floatRepr, hm, hp]
      rw [hrepr]
      unfold decodeNum
      simp only [List.head?_cons, if_pos rfl, List.tail_cons]
      rw [decodeDigits_float true hp0 hmod10]
      simp only [if_true, Option.some.injEq, PyVal.pfloat.injEq]
      exact ⟨by omega, trivial⟩
    · have hrepr : floatRepr m p = natDigits (m.natAbs / 10 ^ p) ++
          '.' :: zeroPad p (natDigits (m.natAbs % 10 ^ p)) := by
        simp [floatRepr, hm, hp]
      rw [hrepr]
      unfold decodeNum
      have hhead : (natDigits (m.natAbs / 10 ^ p) ++
          '.' :: zeroPad p (natDigits (m.natAbs % 10 ^ p))).head? ≠ some '-' := by
        rw [← hrepr]
        intro hq
        have := floatRepr_head_digit hm hq
        exact absurd this (by decide)
      rw [if_neg hhead]
      rw [decodeDigits_float false hp0 hmod10]
      simp only [Bool.false_eq_true, if_false, Option.some.injEq, PyVal.pfloat.injEq]
      exact ⟨by omega, trivial⟩

/-! ## One-value and whole-string round-trips -/

theorem all_numCh_of_all_digit {l : List Char} (h : l.all isDigitCh = true) :
    l.all numCh = true := by
  rw [List.all_eq_true] at h ⊢
  exact fun c hc => numCh_of_isDigitCh (h c hc)

theorem natDigits_all_numCh (m : ℕ) : (natDigits m).all numCh = true :=
  all_numCh_of_all_digit (natDigits_all m)

theorem intRepr_all_numCh (n : ℤ) : (intRepr n).all numCh = true := by
  unfold intRepr
  split
  · simp only [List.all_cons, Bool.and_eq_true]
    exact ⟨by decide, natDigits_all_numCh _⟩
  · exact natDigits_all_numCh _

theorem floatRepr_all_numCh (m : ℤ) (p : ℕ) : (floatRepr m p).all numCh = true := by
  have hz : ∀ q : ℕ, (zeroPad q (natDigits (m.natAbs % 10 ^ q))).all numCh = true :=
    fun q => all_numCh_of_all_digit (zeroPad_all (natDigits_all _))
  unfold floatRepr
  by_cases hm : m < 0 <;> by_cases hp : p = 0 <;>
    simp [hm, hp, List.all_append, natDigits_all_numCh, hz,
      (by decide : numCh '-' = true), (by decide : numCh '.' = true),
      (by decide : numCh '0' = true)]

theorem intRepr_ne_nil (n : ℤ) : intRepr n ≠ [] := by
  unfold intRepr
  split
  · simp
  · exact natDigits_ne_nil _

theorem floatRepr_ne_nil (m : ℤ) (p : ℕ) : floatRepr m p ≠ [] := by
  unfold floatRepr
  by_cases hm : m < 0 <;> by_cases hp : p = 0 <;>
    simp [hm, hp, natDigits_ne_nil]

theorem head_numCh_of_all {l : List Char} (hall : l.all numCh = true) {c : Char}
    (h : l.head? = some c) : numCh c = true := by
  cases l with
  | nil => simp at h
  | cons x xs =>
    simp only [List.head?_cons, Option.some.injEq] at h
    rw [List.all_cons, Bool.and_eq_true] at hall
    rw [← h]
    exact hall.1

theorem head?_append_of_ne_nil {l r : List Char} (h : l ≠ []) :
    (l ++ r).head? = l.head? := by
  cases l with
  | nil => exact absurd rfl h
  | cons x xs => rfl

theorem parseVal_serVal {v : PyVal} (hok : jsonOkB v = true) {rest : List Char}
    (hrest : rest.head? = some ',' ∨ rest.head? = some '\x7d') :
    parseVal (serVal v ++ rest) = some (v, rest) := by
  have hrest_not_numCh : ∀ c, rest.head? = some c → numCh c = false := by
    intro c hcz
    rcases hrest with hr | hr <;> rw [hcz] at hr <;>
      simp only [Option.some.injEq] at hr <;> subst hr <;> decide
  cases v with
  | pstr s =>
    have hplain : plainStrB s = true := hok
    have hq : ∀ c ∈ s.data, c ≠ '"' := by
      unfold plainStrB at hplain
      rw [List.all_eq_true] at hplain
      intro c hcm
      have := hplain c hcm
      simp only [Bool.and_eq_true, bne_iff_ne, ne_eq] at this
      exact this.1
    show parseVal (jsonQuote s ++ rest) = _
    rw [jsonQuote_plain hplain]
    unfold parseVal
    simp only [List.cons_append, List.head?_cons, if_pos rfl, List.tail_cons]
    rw [List.append_assoc, List.cons_append, List.nil_append]
    rw [breakAtQuote_append rest hq]
    rfl
  | pnone =>
    show parseVal ("null".data ++ rest) = _
    unfold parseVal
    have h1 : ("null".data ++ rest).head? = some 'n' := rfl
    rw [h1]
    rw [if_neg (by decide), if_pos rfl]
    rw [expectLit_append]
    rfl
  | pint n =>
    show parseVal (intRepr n ++ rest) = _
    unfold parseVal
    have hhd : (intRepr n ++ rest).head? = (intRepr n).head? :=
      head?_append_of_ne_nil (intRepr_ne_nil n)
    have hnum : ∀ c, (intRepr n ++ rest).head? = some c → numCh c = true := by
      intro c hcz
      rw [hhd] at hcz
      exact head_numCh_of_all (intRepr_all_numCh n) hcz
    have hne1 : (intRepr n ++ rest).head? ≠ some '"' := by
      intro hcz
      have := hnum _ hcz
      exact absurd this (by decide)
    have hne2 : (intRepr n ++ rest).head? ≠ some 'n' := by
      intro hcz
      have := hnum _ hcz
      exact absurd this (by decide)
    rw [if_neg hne1, if_neg hne2]
    have hsplit := @takeWhile_append_stop numCh (intRepr n) rest
      (by rw [← List.all_eq_true]; exact intRepr_all_numCh n) hrest_not_numCh
    rw [hsplit.1, hsplit.2]
    show Option.map (fun v => (v, rest)) (decodeNum (intRepr n)) = _
    rw [decodeNum_intRepr]
    rfl
  | pfloat m p =>
    have hcanon : canonFB m p = true := hok
    show parseVal (floatRepr m p ++ rest) = _
    unfold parseVal
    have hhd : (floatRepr m p ++ rest).head? = (floatRepr m p).head? :=
      head?_append_of_ne_nil (floatRepr_ne_nil m p)
    have hnum : ∀ c, (floatRepr m p ++ rest).head? = some c → numCh c = true := by
      intro c hcz
      rw [hhd] at hcz
      exact head_numCh_of_all (floatRepr_all_numCh m p) hcz
    have hne1 : (floatRepr m p ++ rest).head? ≠ some '"' := by
      intro hcz
      have := hnum _ hcz
      exact absurd this (by decide)
    have hne2 : (floatRepr m p ++ rest).head? ≠ some 'n' := by
      intro hcz
      have := hnum _ hcz
      exact absurd this (by decide)
    rw [if_neg hne1, if_neg hne2]
    have hsplit := @takeWhile_append_stop numCh (floatRepr m p) rest
      (by rw [← List.all_eq_true]; exact floatRepr_all_numCh m p) hrest_not_numCh
    rw [hsplit.1, hsplit.2]
    show Option.map (fun v => (v, rest)) (decodeNum (floatRepr m p)) = _
    rw [decodeNum_floatRepr hcanon]
    rfl

theorem head?_cons_append (c : Char) (l X : List Char) :
    ((c :: l) ++ X).head? = some c := rfl

theorem head?_singleton (c : Char) : ([c] : List Char).head? = some c := rfl

set_option maxHeartbeats 2000000 in
theorem parseUid_uidChars {a b c d e : PyVal} {w : String}
    (ha : jsonOkB a = true) (hb : jsonOkB b = true) (hc : jsonOkB c = true)
    (hd : jsonOkB d = true) (he : jsonOkB e = true) (hw : plainStrB w = true) :
    parseUid (uidChars a b c d e w) = some (a, b, c, d, e, w) := by
  unfold uidChars parseUid
  simp only [List.append_assoc]
  rw [expectLit_append]
  simp only [Option.bind_eq_bind, Option.some_bind]
  rw [parseVal_serVal ha (Or.inl (head?_cons_append _ _ _))]
  simp only [Option.bind_eq_bind, Option.some_bind]
  rw [expectLit_append]
  simp only [Option.bind_eq_bind, Option.some_bind]
  rw [parseVal_serVal hb (Or.inl (head?_cons_append _ _ _))]
  simp only [Option.bind_eq_bind, Option.some_bind]
  rw [expectLit_append]
  simp only [Option.bind_eq_bind, Option.some_bind]
  rw [parseVal_serVal hc (Or.inl (head?_cons_append _ _ _))]
  simp only [Option.bind_eq_bind, Option.some_bind]
  rw [expectLit_append]
  simp only [Option.bind_eq_bind, Option.some_bind]
  rw [parseVal_serVal hd (Or.inl (head?_cons_append _ _ _))]
  simp only [Option.bind_eq_bind, Option.some_bind]
  rw [expectLit_append]
  simp only [Option.bind_eq_bind, Option.some_bind]
  rw [parseVal_serVal he (Or.inl (head?_cons_append _ _ _))]
  simp only [Option.bind_eq_bind, Option.some_bind]
  rw [expectLit_append]
  simp only [Option.bind_eq_bind, Option.some_bind]
  rw [parseVal_serVal (v := .pstr w) hw (Or.inr (head?_singleton _))]
  simp only [Option.bind_eq_bind, Option.some_bind]

theorem uidString_congr {t1 t2 : RawTrade} {w1 w2 : String}
    (h : t1.uidFields w1 = t2.uidFields w2) :
    uidString t1 w1 = uidString t2 w2 := by
  unfold RawTrade.uidFields at h
  simp only [Prod.mk.injEq] at h
  obtain ⟨h1, h2, h3, h4, h5, h6⟩ := h
  unfold uidString
  rw [h1, h2, h3, h4, h5, h6]

theorem uidString_inj {t1 t2 : RawTrade} {w1 w2 : String}
    (h1 : uidFieldsOkB t1 w1 = true) (h2 : uidFieldsOkB t2 w2 = true)
    (heq : uidString t1 w1 = uidString t2 w2) :
    t1.uidFields w1 = t2.uidFields w2 := by
  unfold uidFieldsOkB at h1 h2
  simp only [Bool.and_eq_true] at h1 h2
  obtain ⟨⟨⟨⟨⟨ha1, hb1⟩, hc1⟩, hd1⟩, he1⟩, hw1⟩ := h1
  obtain ⟨⟨⟨⟨⟨ha2, hb2⟩, hc2⟩, hd2⟩, he2⟩, hw2⟩ := h2
  unfold uidString at heq
  have hlists : uidChars t1.uidAmount t1.uidAsset t1.price (sideVal t1.side)
      t1.timestamp w1 =
      uidChars t2.uidAmount t2.uidAsset t2.price (sideVal t2.side)
      t2.timestamp w2 := by
    have := congrArg String.data heq
    simpa using this
  have p1 := parseUid_uidChars ha1 hb1 hc1 hd1 he1 hw1
  have p2 := parseUid_uidChars ha2 hb2 hc2 hd2 he2 hw2
  rw [hlists] at p1
  rw [p2] at p1
  simp only [Option.some.injEq, Prod.mk.injEq] at p1
  obtain ⟨q1, q2, q3, q4, q5, q6⟩ := p1
  unfold RawTrade.uidFields
  simp only [Prod.mk.injEq]
  exact ⟨q1.symm, q2.symm, q3.symm, q4.symm, q5.symm, q6.symm⟩

/-! ## C1 — ingestion is idempotent -/

/-- **C1**: for every normalized trade record whose identifier is not yet
stored, inserting it twice through `create_trade` yields: the first call
returns the stored row, the second call returns the "already exists"
sentinel `none`, the store is unchanged by the second call, and exactly one
row with that identifier is stored. -/
theorem create_trade_idempotent (db : Db) (data : NormalizedTrade)
    (now1 now2 : String) (h : get_trade db data.trade_uid = none) :
    (create_trade now1 db data).1 = some ⟨data, now1⟩ ∧
    (create_trade now2 (create_trade now1 db data).2 data).1 = none ∧
    (create_trade now2 (create_trade now1 db data).2 data).2 =
      (create_trade now1 db data).2 ∧
    ((create_trade now1 db data).2.trades.filter
      (fun t => t.trade_uid = data.trade_uid)).length = 1 := by
  have h1 : create_trade now1 db data =
      (some ⟨data, now1⟩, { db with trades := db.trades ++ [⟨data, now1⟩] }) := by
    unfold create_trade
    rw [h]
  have hfind2 : get_trade { db with trades := db.trades ++ [⟨data, now1⟩] }
      data.trade_uid = some ⟨data, now1⟩ := by
    unfold get_trade at h ⊢
    simp only [List.find?_append, h, Option.none_or]
    simp [List.find?]
  refine ⟨by rw [h1], ?_, ?_, ?_⟩
  · rw [h1]
    unfold create_trade
    rw [hfind2]
  · rw [h1]
    unfold create_trade
    rw [hfind2]
  · rw [h1]
    simp only
    rw [List.filter_append]
    have hnil : db.trades.filter
        (fun t => decide (t.trade_uid = data.trade_uid)) = [] := by
      rw [List.filter_eq_nil_iff]
      unfold get_trade at h
      rw [List.find?_eq_none] at h
      intro a ha
      simpa using h a ha
    rw [hnil]
    simp

/-- **C1 witness**: the idempotence theorem run at the empty store on a
concrete normalized record. -/
theorem create_trade_idempotent_witness :
    (create_trade "t1" Db.empty sampleNorm).1 = some ⟨sampleNorm, "t1"⟩ ∧
    (create_trade "t2" (create_trade "t1" Db.empty sampleNorm).2 sampleNorm).1
      = none ∧
    (create_trade "t2" (create_trade "t1" Db.empty sampleNorm).2 sampleNorm).2
      = (create_trade "t1" Db.empty sampleNorm).2 ∧
    ((create_trade "t1" Db.empty sampleNorm).2.trades.filter
      (fun t => t.trade_uid = sampleNorm.trade_uid)).length = 1 :=
  create_trade_idempotent Db.empty sampleNorm "t1" "t2" rfl

/-! ## C2 — the alert threshold policy -/

/-- **C2 counterexample**: the claim "every trade with usd notional present
and below the threshold is suppressed" is false on the code: a trade whose
notional is present and equal to `0`, with threshold `100`, still alerts,
because `if trade.usd_amount and ...` treats the float `0.0` as falsy. -/
theorem should_send_alert_claim_false :
    ¬ (∀ (threshold : ℚ) (t : StoredTrade) (x : ℚ),
        t.usd_amount = some x → x < threshold →
        should_send_alert threshold t = false) := by
  intro hclaim
  have h0 := hclaim 100 zeroUsdTrade 0 rfl (by norm_num)
  have hval : should_send_alert 100 zeroUsdTrade = true := by decide
  rw [hval] at h0
  simp at h0

/-- **C2 (amended)**: `TradePoller.should_send_alert` returns `False` exactly
when the usd notional is present, *nonzero*, and below the configured
threshold; a missing notional and the notional `0` both fail open (alert),
and a notional at or above the threshold alerts. -/
theorem should_send_alert_iff (threshold : ℚ) (t : StoredTrade) :
    should_send_alert threshold t = false ↔
      ∃ x, t.usd_amount = some x ∧ x ≠ 0 ∧ x < threshold := by
  unfold should_send_alert
  cases ht : t.usd_amount with
  | none => simp
  | some x =>
    show (if x ≠ 0 ∧ x < threshold then false else true) = false ↔ _
    by_cases hcond : x ≠ 0 ∧ x < threshold
    · rw [if_pos hcond]
      simp only [true_iff]
      exact ⟨x, rfl, hcond.1, hcond.2⟩
    · rw [if_neg hcond]
      simp only [Bool.true_eq_false, false_iff]
      rintro ⟨y, hy, hy0, hyt⟩
      injection hy with hy
      exact hcond (by rw [hy]; exact ⟨hy0, hyt⟩)

/-! ## C9 — structured API error statuses -/

/-- **C9 counterexample**: registering an already-tracked wallet does *not*
fail with HTTP 409 Conflict — the code raises status 400 ("Wallet already
tracked"). -/
theorem create_favorite_duplicate_is_400 :
    create_favorite "t0" db9 dupReq = .error ⟨400, "Wallet already tracked"⟩ ∧
    (400 : ℕ) ≠ 409 := by
  constructor
  · rfl
  · decide

/-- **C9 (amended)**: the query API maps error cases to explicit structured
statuses: duplicate wallet registration fails with status **400** and detail
"Wallet already tracked" (not 409), operations on an unknown wallet fail
with 404 "Wallet not found", and an unexpected exception in deletion
produces a structured 500 response carrying the error text — never a bare
stack trace. -/
theorem api_error_mapping (now : String) (db : Db) (wc : WalletCreate)
    (addr : String) (upd : WalletUpdate) (e : String)
    (hdup : (get_wallet db wc.wallet_address).isSome = true)
    (hmiss : get_wallet db addr = none) :
    create_favorite now db wc = .error ⟨400, "Wallet already tracked"⟩ ∧
    update_favorite db addr upd = .error ⟨404, "Wallet not found"⟩ ∧
    delete_favorite db addr none = .error ⟨404, "Wallet not found"⟩ ∧
    delete_favorite db addr (some e) =
      .error ⟨500, "Error deleting wallet: " ++ e⟩ := by
  refine ⟨?_, ?_, ?_, rfl⟩
  · unfold create_favorite
    rw [if_pos hdup]
  · unfold update_favorite update_wallet
    rw [hmiss]
  · unfold delete_favorite delete_wallet
    rw [hmiss]

/-- **C9 witness**: the error-mapping theorem at a concrete store tracking
`0xA`, a duplicate registration for `0xA`, and the unknown wallet `0xZ`. -/
theorem api_error_mapping_witness :
    create_favorite "t0" db9 dupReq = .error ⟨400, "Wallet already tracked"⟩ ∧
    update_favorite db9 "0xZ" ⟨none, none, none⟩ =
      .error ⟨404, "Wallet not found"⟩ ∧
    delete_favorite db9 "0xZ" none = .error ⟨404, "Wallet not found"⟩ ∧
    delete_favorite db9 "0xZ" (some "disk I-O error") =
      .error ⟨500, "Error deleting wallet: " ++ "disk I-O error"⟩ :=
  api_error_mapping "t0" db9 dupReq "0xZ" ⟨none, none, none⟩ "disk I-O error"
    (by decide) (by decide)

/-! ## C10 — the AlertLog records every attempt and is never retried -/

/-- **C10**: when no `AlertLog` row exists for a trade identifier,
`send_alert` attempts the send and appends exactly one row — on success *and*
on failure alike, with the outcome recorded; once any row exists for the
identifier (a failure row included), every later `send_alert` call returns
without sending and without adding a row — so a trade whose notification
failed is never retried. -/
theorem send_alert_log_once (notifier : PyVal → Bool × Option String)
    (now email_to : String) (db : Db) (w : TrackedWallet) (t : StoredTrade)
    (h : was_alert_sent db t.trade_uid = false) :
    (send_alert notifier now email_to db w t).1 = true ∧
    (send_alert notifier now email_to db w t).2.alert_log =
      db.alert_log ++ [⟨t.trade_uid, w.wallet_address, email_to, now,
        if (notifier t.trade_uid).1 then "success" else "failed",
        if (notifier t.trade_uid).1 then none else (notifier t.trade_uid).2⟩] ∧
    ((send_alert notifier now email_to db w t).2.alert_log.filter
      (fun a => a.trade_uid = t.trade_uid)).length = 1 ∧
    (∀ (db' : Db) (n2 : PyVal → Bool × Option String) (now2 email2 : String)
        (w2 : TrackedWallet),
      was_alert_sent db' t.trade_uid = true →
      send_alert n2 now2 email2 db' w2 t = (false, db')) ∧
    send_alert notifier now email_to
        (send_alert notifier now email_to db w t).2 w t =
      (false, (send_alert notifier now email_to db w t).2) := by
  have hnoop : ∀ (db' : Db) (n2 : PyVal → Bool × Option String)
      (now2 email2 : String) (w2 : TrackedWallet),
      was_alert_sent db' t.trade_uid = true →
      send_alert n2 now2 email2 db' w2 t = (false, db') := by
    intro db' n2 now2 email2 w2 h'
    unfold send_alert
    rw [h']
    rfl
  have hs : send_alert notifier now email_to db w t =
      (true, create_alert_log now db t.trade_uid w.wallet_address email_to
        (if (notifier t.trade_uid).1 then "success" else "failed")
        (if (notifier t.trade_uid).1 then none else (notifier t.trade_uid).2)) := by
    unfold send_alert
    rw [h]
    rfl
  have hlog : (send_alert notifier now email_to db w t).2.alert_log =
      db.alert_log ++ [⟨t.trade_uid, w.wallet_address, email_to, now,
        if (notifier t.trade_uid).1 then "success" else "failed",
        if (notifier t.trade_uid).1 then none else (notifier t.trade_uid).2⟩] := by
    rw [hs]
    rfl
  have hnone : db.alert_log.find?
      (fun a => decide (a.trade_uid = t.trade_uid)) = none := by
    unfold was_alert_sent at h
    cases hf : db.alert_log.find? (fun a => decide (a.trade_uid = t.trade_uid)) with
    | none => rfl
    | some r =>
      rw [hf] at h
      simp at h
  have hnil : db.alert_log.filter
      (fun a => decide (a.trade_uid = t.trade_uid)) = [] := by
    rw [List.filter_eq_nil_iff]
    rw [List.find?_eq_none] at hnone
    intro a ha
    simpa using hnone a ha
  have hsent2 : was_alert_sent
      (send_alert notifier now email_to db w t).2 t.trade_uid = true := by
    unfold was_alert_sent
    rw [hlog, List.find?_append]
    cases hfa : db.alert_log.find? (fun a => decide (a.trade_uid = t.trade_uid)) with
    | some r => simp
    | none =>
      simp only [Option.none_or]
      rw [List.find?_cons_of_pos _ (by simp)]
      simp
  refine ⟨by rw [hs], hlog, ?_, hnoop, hnoop _ _ _ _ _ hsent2⟩
  rw [hlog, List.filter_append, hnil]
  simp

/-- **C10 witness**: a failing notifier at the empty store: the attempt is
logged once with status `failed`, and the immediate retry is a no-op. -/
theorem send_alert_log_once_witness :
    (send_alert failNotifier "t0" "x@y" Db.empty walletA zeroUsdTrade).1 = true ∧
    (send_alert failNotifier "t0" "x@y" Db.empty walletA zeroUsdTrade).2.alert_log =
      Db.empty.alert_log ++ [⟨zeroUsdTrade.trade_uid, walletA.wallet_address,
        "x@y", "t0",
        if (failNotifier zeroUsdTrade.trade_uid).1 then "success" else "failed",
        if (failNotifier zeroUsdTrade.trade_uid).1 then none
          else (failNotifier zeroUsdTrade.trade_uid).2⟩] ∧
    ((send_alert failNotifier "t0" "x@y" Db.empty walletA
        zeroUsdTrade).2.alert_log.filter
      (fun a => a.trade_uid = zeroUsdTrade.trade_uid)).length = 1 ∧
    (∀ (db' : Db) (n2 : PyVal → Bool × Option String) (now2 email2 : String)
        (w2 : TrackedWallet),
      was_alert_sent db' zeroUsdTrade.trade_uid = true →
      send_alert n2 now2 email2 db' w2 zeroUsdTrade = (false, db')) ∧
    send_alert failNotifier "t0" "x@y"
        (send_alert failNotifier "t0" "x@y" Db.empty walletA zeroUsdTrade).2
        walletA zeroUsdTrade =
      (false, (send_alert failNotifier "t0" "x@y" Db.empty walletA
        zeroUsdTrade).2) :=
  send_alert_log_once failNotifier "t0" "x@y" Db.empty walletA zeroUsdTrade rfl

/-! ## The shape of a successful normalization -/

theorem normalize_trade_fields (hash : String → String) (now : DateTime)
    (t : RawTrade) (w : String) (res : NormalizedTrade)
    (h : normalize_trade hash now t w = .ok res) :
    res.side = normSideFull t.side ∧
    res.price = safe_float t.price ∧
    res.shares = safe_float (t.shares.pyOr (t.size.pyOr t.amount)) ∧
    res.usd_amount =
      (if qTruthy (safe_float (t.usd_amount.pyOr t.value_usd)) = false ∧
          qTruthy (safe_float t.price) = true ∧
          qTruthy (safe_float (t.shares.pyOr (t.size.pyOr t.amount))) = true then
        some ((safe_float t.price).getD 0 *
          (safe_float (t.shares.pyOr (t.size.pyOr t.amount))).getD 0)
      else safe_float (t.usd_amount.pyOr t.value_usd)) ∧
    res.trade_uid =
      (if (t.id.pyOr t.trade_id).truthy then t.id.pyOr t.trade_id
       else .pstr (generate_trade_uid hash t w)) ∧
    res.wallet_address = w := by
  unfold normalize_trade at h
  cases hts : normalize_timestamp now t.timestamp with
  | error e =>
    rw [hts] at h
    simp at h
  | ok ts =>
    rw [hts] at h
    simp at h
    refine ⟨?_, ?_, ?_, ?_, ?_, ?_⟩ <;> rw [← h]

/-! ## C5 — side normalization -/

/-- **C5**: side normalization maps the synonyms to the two-valued enum
(`"b"`→buy, `"s"`→sell, `"long"`→buy, `"short"`→sell), passes every
unrecognized non-empty value through lower-cased (`"unknown"` stays
`"unknown"`), turns an empty or missing side into `none` — and
`normalize_trade` stores exactly this normalization. -/
theorem side_normalization :
    normSideFull (some "b") = some "buy" ∧
    normSideFull (some "s") = some "sell" ∧
    normSideFull (some "long") = some "buy" ∧
    normSideFull (some "short") = some "sell" ∧
    normSideFull (some "unknown") = some "unknown" ∧
    normSideFull none = none ∧
    normSideFull (some "") = none ∧
    (∀ s : String, s ≠ "" →
      asciiLower s ∉ (["b", "s", "buy", "sell", "long", "short"] : List String) →
      normSideFull (some s) = some (asciiLower s)) ∧
    (∀ (hash : String → String) (now : DateTime) (t : RawTrade) (w : String)
        (res : NormalizedTrade),
      normalize_trade hash now t w = .ok res → res.side = normSideFull t.side) := by
  refine ⟨by decide, by decide, by decide, by decide, by decide, rfl, by decide,
    ?_, ?_⟩
  · intro s hne hnotin
    have hb : s ≠ "b" := by
      rintro rfl
      exact hnotin (by decide)
    have hs : s ≠ "s" := by
      rintro rfl
      exact hnotin (by decide)
    have h1 : ¬ (asciiLower s = "buy" ∨ asciiLower s = "long") := by
      rintro (h | h) <;> exact hnotin (by rw [h]; decide)
    have h2 : ¬ (asciiLower s = "sell" ∨ asciiLower s = "short") := by
      rintro (h | h) <;> exact hnotin (by rw [h]; decide)
    have hside : normalize_side (some s) =
        (if s = "" then none
         else
           if asciiLower s = "buy" ∨ asciiLower s = "long" then some "buy"
           else if asciiLower s = "sell" ∨ asciiLower s = "short" then some "sell"
           else some (asciiLower s)) := rfl
    unfold normSideFull
    simp only [Option.getD_some]
    rw [if_neg hb, if_neg hs, hside, if_neg hne, if_neg h1, if_neg h2]
  · intro hash now t w res h
    exact (normalize_trade_fields hash now t w res h).1

/-- **C5 witness**: the lower-cased passthrough at `"Unknown"`, and the
normalizer run on a concrete record storing the normalized side. -/
theorem side_normalization_witness :
    normSideFull (some "Unknown") = some (asciiLower "Unknown") ∧
    normalizeResult0.side = normSideFull zeroUsdRaw.side :=
  ⟨side_normalization.2.2.2.2.2.2.2.1 "Unknown" (by decide) (by decide),
   side_normalization.2.2.2.2.2.2.2.2 id dt0 zeroUsdRaw "0xabc"
     normalizeResult0 rfl⟩

/-! ## C3 — usd notional backfill -/

/-- **C3 counterexample**: a usd notional *supplied upstream with the
meaningful value zero* is not kept as-is: with price 2 and shares 3 the
normalizer stores 6 (= price × shares), because `trade.get("usd_amount") or
...` and `if not normalized["usd_amount"]` treat 0 as missing. -/
theorem usd_zero_not_kept :
    (normalize_trade id dt0 zeroUsdRaw "0xabc").toOption.map
      (fun r => r.usd_amount) = some (some 6) ∧
    some (some (6 : ℚ)) ≠ some (some (0 : ℚ)) := by
  constructor
  · with_unfolding_all decide
  · with_unfolding_all decide

/-- **C3 (amended)**: the normalizer backfills usd notional as price × shares
exactly when the supplied usd notional parses to nothing *or to zero* and
both price and shares parse to nonzero values; a nonzero supplied usd
notional is kept as-is; when no backfill applies the parsed upstream value
(possibly absent) is stored; and numeric coercion sends missing or
unparsable values to absent while keeping the meaningful zero. -/
theorem usd_backfill (hash : String → String) (now : DateTime) (t : RawTrade)
    (w : String) (res : NormalizedTrade)
    (h : normalize_trade hash now t w = .ok res) :
    res.price = safe_float t.price ∧
    res.shares = safe_float (t.shares.pyOr (t.size.pyOr t.amount)) ∧
    (∀ q : ℚ, safe_float (t.usd_amount.pyOr t.value_usd) = some q → q ≠ 0 →
      res.usd_amount = some q) ∧
    (qTruthy (safe_float (t.usd_amount.pyOr t.value_usd)) = false →
      ∀ p s : ℚ, safe_float t.price = some p → p ≠ 0 →
        safe_float (t.shares.pyOr (t.size.pyOr t.amount)) = some s → s ≠ 0 →
        res.usd_amount = some (p * s)) ∧
    (qTruthy (safe_float (t.usd_amount.pyOr t.value_usd)) = false →
      (qTruthy (safe_float t.price) = false ∨
        qTruthy (safe_float (t.shares.pyOr (t.size.pyOr t.amount))) = false) →
      res.usd_amount = safe_float (t.usd_amount.pyOr t.value_usd)) ∧
    safe_float .pnone = none ∧
    safe_float (.pstr "banana") = none ∧
    safe_float (.pint 0) = some 0 := by
  obtain ⟨-, hp, hsh, husd, -, -⟩ := normalize_trade_fields hash now t w res h
  refine ⟨hp, hsh, ?_, ?_, ?_, rfl, by decide, by decide⟩
  · intro q hq hq0
    rw [husd, if_neg, hq]
    intro ⟨h1, _⟩
    rw [hq] at h1
    unfold qTruthy at h1
    simp at h1
    exact hq0 h1
  · intro h0 p s hpq hp0 hsq hs0
    rw [husd, if_pos]
    · rw [hpq, hsq]
      simp
    · refine ⟨h0, ?_, ?_⟩
      · rw [hpq]
        unfold qTruthy
        simpa using hp0
      · rw [hsq]
        unfold qTruthy
        simpa using hs0
  · intro h0 hor
    rw [husd, if_neg]
    rintro ⟨-, h1, h2⟩
    rcases hor with hx | hx
    · rw [hx] at h1
      simp at h1
    · rw [hx] at h2
      simp at h2

/-- **C3 witness**: the backfill theorem at the concrete zero-usd record —
the nonzero-kept clause applies vacuously there, and the backfill clause
computes 2 × 3. -/
theorem usd_backfill_witness :
    normalizeResult0.price = safe_float zeroUsdRaw.price ∧
    normalizeResult0.usd_amount = some ((2 : ℚ) * 3) :=
  ⟨(usd_backfill id dt0 zeroUsdRaw "0xabc" normalizeResult0 rfl).1,
   (usd_backfill id dt0 zeroUsdRaw "0xabc" normalizeResult0 rfl).2.2.2.1
     (by with_unfolding_all decide) 2 3 (by with_unfolding_all decide)
     (by norm_num) (by with_unfolding_all decide) (by norm_num)⟩

/-! ## C8 — poll-cycle wallet isolation -/

/-- **C8**: one wallet's failure never stops the others.  First, generally:
if processing one wallet raises, `poll_once`'s per-wallet `try/except`
catches it and the cycle equals the cycle over the remaining wallets (every
other wallet is fully processed).  Second, concretely at the fetch boundary:
with three tracked wallets where the second's HTTP fetch raises, the cycle
stores exactly what processing the first and then the third wallet stores. -/
theorem poll_cycle_isolation :
    (∀ (process : TrackedWallet → Db → Except String Db) (db : Db)
        (pre post : List TrackedWallet) (wbad : TrackedWallet),
      db.wallets = pre ++ wbad :: post → db.wallets.length ≤ 100 →
      (∀ d : Db, ∃ m : String, process wbad d = .error m) →
      poll_once process db =
        pollFold process post (pollFold process pre db)) ∧
    (∀ (hash : String → String) (nowD : DateTime)
        (notifier : PyVal → Bool × Option String) (minSize : ℚ)
        (now email : String) (http : String → Except String ApiResponse)
        (db : Db) (w1 w2 w3 : TrackedWallet) (m : String),
      db.wallets = [w1, w2, w3] → http w2.wallet_address = .error m →
      poll_once (poll_wallet_step hash nowD notifier minSize now email http) db =
        poll_wallet notifier minSize now email
          (poll_wallet notifier minSize now email db w1
            (hashdive_get_trades hash nowD (http w1.wallet_address)
              w1.wallet_address))
          w3
          (hashdive_get_trades hash nowD (http w3.wallet_address)
            w3.wallet_address)) := by
  constructor
  · intro process db pre post wbad hw hlen herr
    have hget : get_tracked_wallets db = pre ++ wbad :: post := by
      unfold get_tracked_wallets
      rw [hw] at hlen ⊢
      simp only [List.drop_zero]
      exact List.take_of_length_le hlen
    unfold poll_once
    rw [hget]
    unfold pollFold
    rw [List.foldl_append]
    simp only [List.foldl_cons]
    obtain ⟨m, hm⟩ := herr (List.foldl _ db pre)
    rw [hm]
  · intro hash nowD notifier minSize now email http db w1 w2 w3 m hw hhttp
    have hget : get_tracked_wallets db = [w1, w2, w3] := by
      unfold get_tracked_wallets
      rw [hw]
      rfl
    unfold poll_once
    rw [hget]
    unfold pollFold
    simp only [List.foldl_cons, List.foldl_nil]
    unfold poll_wallet_step
    simp only
    rw [hhttp]
    have hempty : hashdive_get_trades hash nowD (.error m) w2.wallet_address = [] := rfl
    rw [hempty]
    have hnoop : ∀ d : Db, poll_wallet notifier minSize now email d w2 [] = d :=
      fun d => rfl
    rw [hnoop]

/-- **C8 witness**: the guarded-loop clause at an explicit raising step for
the middle wallet, and the fetch-failure clause at a store with tracked
wallets `0xA`, `0xB`, `0xC` where fetching `0xB` raises a connection
error. -/
theorem poll_cycle_isolation_witness :
    poll_once procBad db3 = pollFold procBad [walletC] (pollFold procBad [walletA] db3) ∧
    poll_once (poll_wallet_step id dt0 okNotifier 100 "now" "x@y" httpBFails) db3 =
      poll_wallet okNotifier 100 "now" "x@y"
        (poll_wallet okNotifier 100 "now" "x@y" db3 walletA
          (hashdive_get_trades id dt0 (httpBFails walletA.wallet_address)
            walletA.wallet_address))
        walletC
        (hashdive_get_trades id dt0 (httpBFails walletC.wallet_address)
          walletC.wallet_address) :=
  ⟨poll_cycle_isolation.1 procBad db3 [walletA] [walletC] walletB rfl
      (by decide) (fun d => ⟨"boom", rfl⟩),
   poll_cycle_isolation.2 id dt0 okNotifier 100 "now" "x@y" httpBFails db3
      walletA walletB walletC "connection refused" rfl rfl⟩

/-! ## C6 — the fallback identifier is deterministic and field-sensitive -/

/-- **C6**: `generate_trade_uid` is deterministic — identical resolved
{wallet, asset, timestamp, side, price, amount} fields hash to the same
identifier — and field-sensitive: for normal inputs (strings that JSON-quote
without escapes, floats in canonical decimal form), records that differ in
any of the six fields serialize to *different* `uid_string`s, so their
identifiers differ whenever SHA-256 does not collide on the two serialized
strings (the collision-resistance hypothesis carried by the `hash`
parameter). -/
theorem generate_trade_uid_deterministic_field_sensitive :
    (∀ (hash : String → String) (t1 t2 : RawTrade) (w1 w2 : String),
      t1.uidFields w1 = t2.uidFields w2 →
      generate_trade_uid hash t1 w1 = generate_trade_uid hash t2 w2) ∧
    (∀ (hash : String → String) (t1 t2 : RawTrade) (w1 w2 : String),
      uidFieldsOkB t1 w1 = true → uidFieldsOkB t2 w2 = true →
      t1.uidFields w1 ≠ t2.uidFields w2 →
      (hash (uidString t1 w1) = hash (uidString t2 w2) →
        uidString t1 w1 = uidString t2 w2) →
      generate_trade_uid hash t1 w1 ≠ generate_trade_uid hash t2 w2) := by
  constructor
  · intro hash t1 t2 w1 w2 h
    unfold generate_trade_uid
    rw [uidString_congr h]
  · intro hash t1 t2 w1 w2 h1 h2 hne hinj heq
    exact hne (uidString_inj h1 h2 (hinj heq))

/-- **C6 witness**: determinism at a concrete record, and field-sensitivity
for two records differing only in the price field, with the identity
function standing in as an (injective, hence collision-free) hash. -/
theorem generate_trade_uid_witness :
    generate_trade_uid id rawP1 "0xw" = generate_trade_uid id rawP1 "0xw" ∧
    generate_trade_uid id rawP1 "0xw" ≠ generate_trade_uid id rawP2 "0xw" :=
  ⟨generate_trade_uid_deterministic_field_sensitive.1 id rawP1 rawP1 "0xw" "0xw"
      rfl,
   generate_trade_uid_deterministic_field_sensitive.2 id rawP1 rawP2 "0xw" "0xw"
      (by with_unfolding_all decide) (by with_unfolding_all decide)
      (by with_unfolding_all decide) (fun h => h)⟩

/-! ## C7 — pagination and sorting -/

/-- **C7**: for the usd-descending sort with no filters, `GET /trades`
returns the page starting at offset `(page-1)*page_size` of the sorted
trades, with `total_results` the full matching count (computed before
pagination, hence independent of the page), and `total_pages` satisfying the
ceiling bounds `total ≤ pages*size < total + size`; and on a store of 120
trades, page 2 of size 50 sorted by `usd_amount` descending returns exactly
the trades ranked 51-100 by usd notional, with `total_results = 120` and
`total_pages = 3`. -/
theorem trades_pagination_sorting (db : Db) (page size : ℕ)
    (hsize : 0 < size) :
    (api_get_trades db none none none none none none none (some "usd_amount")
        (some "desc") page size).items =
      ((db.trades.mergeSort (fun a b =>
          optLe (fun x y => decide (x ≤ y)) b.usd_amount a.usd_amount)).drop
        ((page - 1) * size)).take size ∧
    (api_get_trades db none none none none none none none (some "usd_amount")
        (some "desc") page size).total_results = db.trades.length ∧
    db.trades.length ≤
      (api_get_trades db none none none none none none none (some "usd_amount")
        (some "desc") page size).total_pages * size ∧
    (api_get_trades db none none none none none none none (some "usd_amount")
        (some "desc") page size).total_pages * size < db.trades.length + size ∧
    (api_get_trades db120 none none none none none none none (some "usd_amount")
        (some "desc") 2 50).items = ((List.range' 20 50).reverse).map mkTrade ∧
    (api_get_trades db120 none none none none none none none (some "usd_amount")
        (some "desc") 2 50).total_results = 120 ∧
    (api_get_trades db120 none none none none none none none (some "usd_amount")
        (some "desc") 2 50).total_pages = 3 := by
  have hpages : (api_get_trades db none none none none none none none
      (some "usd_amount") (some "desc") page size).total_pages =
      (db.trades.length + size - 1) / size := rfl
  refine ⟨rfl, rfl, ?_, ?_, ?_, by with_unfolding_all decide,
    by with_unfolding_all decide⟩
  · rw [hpages]
    have hdm := Nat.div_add_mod (db.trades.length + size - 1) size
    have hmod : (db.trades.length + size - 1) % size < size :=
      Nat.mod_lt _ hsize
    have hcomm : ((db.trades.length + size - 1) / size) * size =
        size * ((db.trades.length + size - 1) / size) := Nat.mul_comm _ _
    omega
  · rw [hpages]
    have h1 := Nat.div_mul_le_self (db.trades.length + size - 1) size
    omega
  · with_unfolding_all decide

/-- **C7 witness**: the pagination theorem at the 120-trade store, page 2,
page size 50. -/
theorem trades_pagination_sorting_witness :
    (api_get_trades db120 none none none none none none none (some "usd_amount")
        (some "desc") 2 50).items = ((List.range' 20 50).reverse).map mkTrade ∧
    (api_get_trades db120 none none none none none none none (some "usd_amount")
        (some "desc") 2 50).total_results = 120 ∧
    (api_get_trades db120 none none none none none none none (some "usd_amount")
        (some "desc") 2 50).total_pages = 3 :=
  ⟨(trades_pagination_sorting db120 2 50 (by decide)).2.2.2.2.1,
   (trades_pagination_sorting db120 2 50 (by decide)).2.2.2.2.2.1,
   (trades_pagination_sorting db120 2 50 (by decide)).2.2.2.2.2.2⟩

/-! ## C4 — timestamp normalization -/

theorem splitOnCh_no_sep {c : Char} {l : List Char} (h : c ∉ l) :
    splitOnCh c l = [l] := by
  induction l with
  | nil => rfl
  | cons x xs ih =>
    unfold splitOnCh
    rw [if_neg (by intro he; exact h (he ▸ List.mem_cons_self x xs))]
    rw [ih (fun hm => h (List.mem_cons_of_mem x hm))]

theorem replaceZ_id {l : List Char} (h : 'Z' ∉ l) : replaceZ l = l := by
  induction l with
  | nil => rfl
  | cons x xs ih =>
    unfold replaceZ
    rw [if_neg (by intro he; exact h (he ▸ List.mem_cons_self x xs))]
    rw [ih (fun hm => h (List.mem_cons_of_mem x hm))]

theorem pad_chars {p a : ℕ} (hp : 0 < p) (ha : a < 10 ^ p) :
    ∀ c ∈ zeroPad p (natDigits a), isDigitCh c = true := by
  have hall := (zeroPadDigits_spec hp ha).2.1
  rw [List.all_eq_true] at hall
  exact hall

theorem isoformat_chars (dt : DateTime) (hy : dt.year < 10000)
    (hmo : dt.month < 100) (hd : dt.day < 100) (hh : dt.hour < 100)
    (hmi : dt.minute < 100) (hs : dt.second < 100) :
    ∀ c ∈ (isoformat dt).data,
      isDigitCh c = true ∨ c = '-' ∨ c = 'T' ∨ c = ':' := by
  intro c hc
  have hc2 : c ∈ pad4 dt.year ++ '-' :: pad2 dt.month ++ '-' :: pad2 dt.day ++
      'T' :: pad2 dt.hour ++ ':' :: pad2 dt.minute ++ ':' :: pad2 dt.second := hc
  have hflat : c ∈ pad4 dt.year ∨ c = '-' ∨ c ∈ pad2 dt.month ∨ c = '-' ∨
      c ∈ pad2 dt.day ∨ c = 'T' ∨ c ∈ pad2 dt.hour ∨ c = ':' ∨
      c ∈ pad2 dt.minute ∨ c = ':' ∨ c ∈ pad2 dt.second := by
    simpa using hc2
  rcases hflat with h | rfl | h | rfl | h | rfl | h | rfl | h | rfl | h
  · exact Or.inl (pad_chars (by omega) (by simpa using hy) c h)
  · decide
  · exact Or.inl (pad_chars (by omega) (by simpa using hmo) c h)
  · decide
  · exact Or.inl (pad_chars (by omega) (by simpa using hd) c h)
  · decide
  · exact Or.inl (pad_chars (by omega) (by simpa using hh) c h)
  · decide
  · exact Or.inl (pad_chars (by omega) (by simpa using hmi) c h)
  · decide
  · exact Or.inl (pad_chars (by omega) (by simpa using hs) c h)

theorem exists_two {l : List Char} (h : l.length = 2) :
    ∃ a b, l = [a, b] := by
  match l, h with
  | [a, b], _ => exact ⟨a, b, rfl⟩

theorem exists_four {l : List Char} (h : l.length = 4) :
    ∃ a b c d, l = [a, b, c, d] := by
  match l, h with
  | [a, b, c, d], _ => exact ⟨a, b, c, d, rfl⟩

theorem isoParse_isoformat (dt : DateTime)
    (h1 : 1 ≤ dt.year) (h2 : dt.year ≤ 9999) (h3 : 1 ≤ dt.month)
    (h4 : dt.month ≤ 12) (h5 : 1 ≤ dt.day)
    (h6 : dt.day ≤ daysInMonth dt.year dt.month) (h7 : dt.hour ≤ 23)
    (h8 : dt.minute ≤ 59) (h9 : dt.second ≤ 59) :
    isoParse (isoformat dt).data = some (dt, none) := by
  obtain ⟨y, mo, d, hr, mi, s⟩ := dt
  simp only at h1 h2 h3 h4 h5 h6 h7 h8 h9
  have hy4 : y < 10 ^ 4 := by omega
  have hmo2 : mo < 10 ^ 2 := by omega
  have hdm31 : daysInMonth y mo ≤ 31 := by
    unfold daysInMonth
    split
    · split <;> omega
    · split <;> omega
  have hd2 : d < 10 ^ 2 := by omega
  have hh2 : hr < 10 ^ 2 := by omega
  have hmi2 : mi < 10 ^ 2 := by omega
  have hs2 : s < 10 ^ 2 := by omega
  obtain ⟨ly, ay, vy, -⟩ := zeroPadDigits_spec (by omega) hy4
  obtain ⟨lmo, amo, vmo, -⟩ := zeroPadDigits_spec (by omega) hmo2
  obtain ⟨ld, ad, vd, -⟩ := zeroPadDigits_spec (by omega) hd2
  obtain ⟨lh, ah, vh, -⟩ := zeroPadDigits_spec (by omega) hh2
  obtain ⟨lmi, ami, vmi, -⟩ := zeroPadDigits_spec (by omega) hmi2
  obtain ⟨ls, as', vs, -⟩ := zeroPadDigits_spec (by omega) hs2
  obtain ⟨y1, y2, y3, y4, hy⟩ := exists_four ly
  obtain ⟨m1, m2, hm⟩ := exists_two lmo
  obtain ⟨d1, d2, hdd⟩ := exists_two ld
  obtain ⟨e1, e2, hhh⟩ := exists_two lh
  obtain ⟨n1, n2, hn⟩ := exists_two lmi
  obtain ⟨s1, s2, hss⟩ := exists_two ls
  rw [hy] at ay vy
  rw [hm] at amo vmo
  rw [hdd] at ad vd
  rw [hhh] at ah vh
  rw [hn] at ami vmi
  rw [hss] at as' vs
  have hdata : (isoformat ⟨y, mo, d, hr, mi, s⟩).data =
      [y1, y2, y3, y4, '-', m1, m2, '-', d1, d2, 'T', e1, e2, ':',
        n1, n2, ':', s1, s2] := by
    show zeroPad 4 (natDigits y) ++ '-' :: zeroPad 2 (natDigits mo) ++
      '-' :: zeroPad 2 (natDigits d) ++ 'T' :: zeroPad 2 (natDigits hr) ++
      ':' :: zeroPad 2 (natDigits mi) ++ ':' :: zeroPad 2 (natDigits s) = _
    rw [hy, hm, hdd, hhh, hn, hss]
    rfl
  rw [hdata]
  have hmk : mkDatetimeRange (y : ℤ) (mo : ℤ) (d : ℤ) (hr : ℤ) (mi : ℤ)
      (s : ℤ) = some ⟨y, mo, d, hr, mi, s⟩ := by
    unfold mkDatetimeRange
    rw [if_pos]
    · simp
    · refine ⟨by omega, by omega, by omega, by omega, by omega, ?_,
        by omega, by omega, by omega, by omega, by omega, by omega⟩
      simp only [Int.toNat_natCast]
      exact_mod_cast h6
  simp only [isoParse]
  simp [ay, amo, ad, ah, ami, as', vy, vmo, vd, vh, vmi, vs, hmk]

theorem natDigits_eq_fuelAux (f : ℕ) :
    ∀ n : ℕ, n < 10 ^ (f + 1) → natDigits n = natDigitsF f n := by
  induction f with
  | zero =>
    intro n h
    unfold natDigits
    rw [dif_pos (by omega : n < 10)]
    rfl
  | succ f ih =>
    intro n h
    by_cases h10 : n < 10
    · unfold natDigits natDigitsF
      rw [dif_pos h10, if_pos h10]
    · have hdiv : n / 10 < 10 ^ (f + 1) := by
        rw [Nat.div_lt_iff_lt_mul (by omega : 0 < 10)]
        calc n < 10 ^ (f + 1 + 1) := h
          _ = 10 ^ (f + 1) * 10 := pow_succ 10 (f + 1)
      unfold natDigits natDigitsF
      rw [dif_neg h10, if_neg h10, ih (n / 10) hdiv]

theorem natDigits_eq_fuel (n : ℕ) : natDigits n = natDigitsF n n :=
  natDigits_eq_fuelAux n n
    (lt_of_lt_of_le (Nat.lt_pow_self (by omega) n)
      (Nat.pow_le_pow_right (by omega) (by omega)))

theorem isoformat_eval (dt : DateTime) :
    isoformat dt = String.mk
      (zeroPad 4 (natDigitsF dt.year dt.year) ++
        '-' :: zeroPad 2 (natDigitsF dt.month dt.month) ++
        '-' :: zeroPad 2 (natDigitsF dt.day dt.day) ++
        'T' :: zeroPad 2 (natDigitsF dt.hour dt.hour) ++
        ':' :: zeroPad 2 (natDigitsF dt.minute dt.minute) ++
        ':' :: zeroPad 2 (natDigitsF dt.second dt.second)) := by
  unfold isoformat pad4 pad2
  rw [natDigits_eq_fuel dt.year, natDigits_eq_fuel dt.month,
    natDigits_eq_fuel dt.day, natDigits_eq_fuel dt.hour,
    natDigits_eq_fuel dt.minute, natDigits_eq_fuel dt.second]

theorem manualParse_of_no_space {cs : List Char} (h : ' ' ∉ cs) :
    manualParse cs = .ok none := by
  unfold manualParse
  rw [splitOnCh_no_sep h]

theorem strptimeMDY_of_no_space (b : Bool) {cs : List Char} (h : ' ' ∉ cs) :
    strptimeMDY b cs = none := by
  unfold strptimeMDY
  rw [splitOnCh_no_sep h]

theorem normTs_isoformat (dt : DateTime)
    (h1 : 1 ≤ dt.year) (h2 : dt.year ≤ 9999) (h3 : 1 ≤ dt.month)
    (h4 : dt.month ≤ 12) (h5 : 1 ≤ dt.day)
    (h6 : dt.day ≤ daysInMonth dt.year dt.month) (h7 : dt.hour ≤ 23)
    (h8 : dt.minute ≤ 59) (h9 : dt.second ≤ 59) :
    normalizeTimestampStr (isoformat dt) = .ok (isoformat dt) := by
  have hdm31 : daysInMonth dt.year dt.month ≤ 31 := by
    unfold daysInMonth
    split
    · split <;> omega
    · split <;> omega
  have hchars := isoformat_chars dt (by omega) (by omega) (by omega)
    (by omega) (by omega) (by omega)
  have hnospace : ' ' ∉ (isoformat dt).data := by
    intro hm
    rcases hchars ' ' hm with h | h | h | h <;> exact absurd h (by decide)
  have hnoZ : 'Z' ∉ (isoformat dt).data := by
    intro hm
    rcases hchars 'Z' hm with h | h | h | h <;> exact absurd h (by decide)
  unfold normalizeTimestampStr
  rw [manualParse_of_no_space hnospace, strptimeMDY_of_no_space false hnospace,
    strptimeMDY_of_no_space true hnospace, replaceZ_id hnoZ,
    isoParse_isoformat dt h1 h2 h3 h4 h5 h6 h7 h8 h9]

/-- **C4 counterexample**: "for every input, it never raises" is false on the
code in two ways.  The integer branch calls `datetime.fromtimestamp` outside
every `try`, so an out-of-range epoch (`10^12`, civil year ≈ 33658) raises;
and in the string branch the manual `M/D/YYYY` parse calls `datetime(...)`
under an `except (ValueError, IndexError, AttributeError)` tuple that omits
`OverflowError`, so a component that does not fit a C `int` — the year of
`"1/1/9999999999 0:00"` — raises out of `normalize_timestamp` as well. -/
theorem normalize_timestamp_raises_on_big_epoch :
    normalize_timestamp dt0 (.pint 1000000000000) =
      .error "timestamp out of range" ∧
    normalize_timestamp dt0 (.pstr "1/1/9999999999 0:00") =
      .error "OverflowError" := ⟨rfl, rfl⟩

set_option maxRecDepth 40000 in
set_option maxHeartbeats 2000000 in
/-- **C4 (amended)**: timestamp normalization is best-effort but *not*
total.  Every string input either normalizes (`.ok`) or raises
`OverflowError` — the latter exactly when the manual `M/D/YYYY` branch hands
`datetime(...)` a component outside C `int` range, an exception its
`except (ValueError, IndexError, AttributeError)` tuple does not catch.
`"1/14/2026 17:47"` becomes `"2026-01-14T17:47:00"`, a canonical ISO-8601
string round-trips unchanged, an in-range unix epoch integer converts to the
ISO form of its civil time, a string matching none of the accepted formats
(e.g. `"banana"`) is returned unchanged rather than dropped, and an integer
whose civil year leaves 1..9999 raises (see the counterexample). -/
theorem normalize_timestamp_best_effort (now : DateTime) :
    (∀ s : String,
      (∃ r : String, normalize_timestamp now (.pstr s) = .ok r) ∨
      normalize_timestamp now (.pstr s) = .error "OverflowError") ∧
    normalize_timestamp now (.pstr "1/14/2026 17:47") =
      .ok "2026-01-14T17:47:00" ∧
    normalize_timestamp now (.pstr "banana") = .ok "banana" ∧
    (∀ (n : ℤ) (dt : DateTime), fromtimestamp n = .ok dt →
      normalize_timestamp now (.pint n) = .ok (isoformat dt)) ∧
    normalize_timestamp now (.pint 1736872020) = .ok "2025-01-14T16:27:00" ∧
    (∀ dt : DateTime, 1 ≤ dt.year → dt.year ≤ 9999 → 1 ≤ dt.month →
      dt.month ≤ 12 → 1 ≤ dt.day → dt.day ≤ daysInMonth dt.year dt.month →
      dt.hour ≤ 23 → dt.minute ≤ 59 → dt.second ≤ 59 →
      normalize_timestamp now (.pstr (isoformat dt)) = .ok (isoformat dt)) ∧
    (∀ s : String, manualParse s.data = .ok none →
      strptimeMDY false s.data = none → strptimeMDY true s.data = none →
      isoParse (replaceZ s.data) = none →
      normalize_timestamp now (.pstr s) = .ok s) := by
  refine ⟨?_, ?_, ?_, ?_, ?_, ?_, ?_⟩
  · intro s
    cases hval : normalizeTimestampStr s with
    | error e =>
      right
      show (normalizeTimestampStr s).mapError (fun _ => "OverflowError") = _
      rw [hval]
      rfl
    | ok r =>
      left
      refine ⟨r, ?_⟩
      show (normalizeTimestampStr s).mapError (fun _ => "OverflowError") = _
      rw [hval]
      rfl
  · have hmp : manualParse ("1/14/2026 17:47").data =
        .ok (some ⟨2026, 1, 14, 17, 47, 0⟩) := rfl
    have h1 : normalizeTimestampStr "1/14/2026 17:47" =
        .ok (isoformat ⟨2026, 1, 14, 17, 47, 0⟩) := by
      unfold normalizeTimestampStr
      rw [hmp]
    show (normalizeTimestampStr "1/14/2026 17:47").mapError
      (fun _ => "OverflowError") = _
    rw [h1, show isoformat ⟨2026, 1, 14, 17, 47, 0⟩ = "2026-01-14T17:47:00"
      from by rw [isoformat_eval]; decide]
    rfl
  · show (normalizeTimestampStr "banana").mapError
      (fun _ => "OverflowError") = _
    rw [show normalizeTimestampStr "banana" = .ok "banana" from rfl]
    rfl
  · intro n dt h
    show (fromtimestamp n).map isoformat = _
    rw [h]
    rfl
  · show (fromtimestamp 1736872020).map isoformat = _
    rw [show fromtimestamp 1736872020 = .ok ⟨2025, 1, 14, 16, 27, 0⟩ from rfl]
    show Except.ok (isoformat ⟨2025, 1, 14, 16, 27, 0⟩) = _
    rw [show isoformat ⟨2025, 1, 14, 16, 27, 0⟩ = "2025-01-14T16:27:00"
      from by rw [isoformat_eval]; decide]
  · intro dt h1 h2 h3 h4 h5 h6 h7 h8 h9
    show (normalizeTimestampStr (isoformat dt)).mapError
      (fun _ => "OverflowError") = _
    rw [normTs_isoformat dt h1 h2 h3 h4 h5 h6 h7 h8 h9]
    rfl
  · intro s hm hs1 hs2 hiso
    have h1 : normalizeTimestampStr s = .ok s := by
      unfold normalizeTimestampStr
      rw [hm, hs1, hs2, hiso]
    show (normalizeTimestampStr s).mapError (fun _ => "OverflowError") = _
    rw [h1]
    rfl

set_option maxRecDepth 40000 in
set_option maxHeartbeats 2000000 in
/-- **C4 witness**: the amended theorem run at a canonical ISO string, the
epoch `0`, and the unparsable string `"banana"`. -/
theorem normalize_timestamp_best_effort_witness :
    normalize_timestamp dt0 (.pstr "2026-03-05T06:07:08") =
      .ok "2026-03-05T06:07:08" ∧
    normalize_timestamp dt0 (.pint 0) = .ok "1970-01-01T00:00:00" ∧
    normalize_timestamp dt0 (.pstr "banana") = .ok "banana" := by
  refine ⟨?_, ?_, ?_⟩
  · have h := (normalize_timestamp_best_effort dt0).2.2.2.2.2.1
      ⟨2026, 3, 5, 6, 7, 8⟩ (by decide) (by decide) (by decide) (by decide)
      (by decide) (by decide) (by decide) (by decide) (by decide)
    rwa [show isoformat ⟨2026, 3, 5, 6, 7, 8⟩ = "2026-03-05T06:07:08"
      from by rw [isoformat_eval]; decide] at h
  · have h := (normalize_timestamp_best_effort dt0).2.2.2.1 0
      ⟨1970, 1, 1, 0, 0, 0⟩ rfl
    rwa [show isoformat ⟨1970, 1, 1, 0, 0, 0⟩ = "1970-01-01T00:00:00"
      from by rw [isoformat_eval]; decide] at h
  · exact (normalize_timestamp_best_effort dt0).2.2.1

end InsiderTracker
